import Mathlib

/-!
Verification of the scoring engine and backtest simulator of `scanner.py`
(stock-scanner). The Python code operates on pandas series of floats; here
prices, volumes and indicator values are modelled as exact rationals (`ℚ`),
`NaN`/unavailable values as `Option.none`, and a data frame as a `List Bar`
with integer day numbers as dates (day 0 is a Monday, so a day `d` with
`d % 7 = 6` is a Sunday, the right edge of a pandas weekly resample bucket).
-/

/-- One price bar (one row of the data frame): date plus the Open, High,
Low, Close and Volume columns. -/
structure Bar where
  datum : ℕ
  open_ : ℚ
  high : ℚ
  low : ℚ
  close : ℚ
  volume : ℚ
deriving Repr, DecidableEq, Inhabited

/-- The close column of the frame (`df["Close"]`). -/
def closes (df : List Bar) : List ℚ := df.map (·.close)

/-- The volume column of the frame (`df["Volume"]`). -/
def volumes (df : List Bar) : List ℚ := df.map (·.volume)

/-- Positional access `series.iloc[i]` (all uses are guarded by `i < len`). -/
def closeAt (df : List Bar) (i : ℕ) : ℚ := (closes df).getD i 0

/-- Date of bar `i` (`df.index[i]`). -/
def datumAt (df : List Bar) (i : ℕ) : ℕ := (df.getD i default).datum

/-- The trailing window `xs[i+1-w : i+1]` used by a `rolling(w)` aggregate
evaluated at position `i` (shorter than `w` near the start of the series). -/
def fenster (w : ℕ) (xs : List ℚ) (i : ℕ) : List ℚ :=
  (xs.take (i + 1)).drop (i + 1 - w)

/-- `ta.trend.SMAIndicator(xs, window=w).sma_indicator()` at position `i`:
the rolling mean with `min_periods = w`, unavailable before `w` samples. -/
def sma_at (w : ℕ) (xs : List ℚ) (i : ℕ) : Option ℚ :=
  if i < xs.length ∧ w ≤ i + 1 then some ((fenster w xs i).sum / (w : ℚ)) else none

/-- `rolling(w, min_periods=minp).max()` at position `i`. -/
def rollmax_at (w minp : ℕ) (xs : List ℚ) (i : ℕ) : Option ℚ :=
  if i < xs.length ∧ minp ≤ i + 1 then
    some ((fenster w xs i).foldl max ((fenster w xs i).headD 0))
  else none

/-- `rolling(w, min_periods=minp).min()` at position `i`. -/
def rollmin_at (w minp : ℕ) (xs : List ℚ) (i : ℕ) : Option ℚ :=
  if i < xs.length ∧ minp ≤ i + 1 then
    some ((fenster w xs i).foldl min ((fenster w xs i).headD 0))
  else none

/-- `rolling(w).std(ddof=0)` squared, i.e. the rolling population variance at
position `i`; `ta.volatility.BollingerBands` computes the lower band as
`mavg - 2·std`, and over `ℚ` the comparison `kurs < mavg - 2·std` is encoded
square-free (see `unter_bb`), so the variance is what the model stores. -/
def rollvar_at (w : ℕ) (xs : List ℚ) (i : ℕ) : Option ℚ :=
  if i < xs.length ∧ w ≤ i + 1 then
    some (((fenster w xs i).map (fun x => (x - (fenster w xs i).sum / (w : ℚ)) ^ 2)).sum / (w : ℚ))
  else none

/-- Square-free encoding of `kurs < mavg - 2·std` where `std = √var ≥ 0`:
`kurs < mavg - 2·√var  ↔  kurs < mavg ∧ 4·var < (mavg - kurs)²`. -/
def unter_bb (kurs mavg var : ℚ) : Prop :=
  kurs < mavg ∧ 4 * var < (mavg - kurs) ^ 2

instance (kurs mavg var : ℚ) : Decidable (unter_bb kurs mavg var) := by
  unfold unter_bb; infer_instance

/-- `series.diff(1)` without its leading `NaN`: element `k` is
`xs[k+1] - xs[k]`, i.e. the pandas `diff` value at position `k+1`. -/
def diffs (xs : List ℚ) : List ℚ :=
  List.zipWith (fun a b => a - b) (xs.drop 1) xs

/-- `series.ewm(alpha=α, adjust=False).mean()` over a gap-free value list:
`y₀ = x₀`, `yₖ = (1-α)·yₖ₋₁ + α·xₖ`; `none` on the empty list. -/
def ewm_fold (a : ℚ) : List ℚ → Option ℚ
  | [] => none
  | x :: rest => some (rest.foldl (fun y z => (1 - a) * y + a * z) x)

/-- `ta.momentum.RSIIndicator(xs, window=14).rsi()` at position `i`:
gains/losses of `diff(1)` smoothed by `ewm(alpha=1/14, min_periods=14,
adjust=False)`, then `100 - 100/(1+up/down)`. Since the `diff` series starts
at position 1, the value is unavailable before position 14. The float
formula gives `100·up/(up+down)` for every reachable case (including
`down = 0`, where pandas produces `rs = inf` and hence `rsi = 100`), and
`NaN` when `up = down = 0`; the model uses that closed form. -/
def rsi_at (xs : List ℚ) (i : ℕ) : Option ℚ :=
  if i < xs.length ∧ 14 ≤ i then
    let d := diffs (xs.take (i + 1))
    let up := (ewm_fold (1 / 14) (d.map (fun x => max x 0))).getD 0
    let dn := (ewm_fold (1 / 14) (d.map (fun x => max (-x) 0))).getD 0
    if up + dn = 0 then none else some (100 * up / (up + dn))
  else none

/-- `ewm(span=s, adjust=False).mean()` at position `i` (recursion from the
first sample, `alpha = 2/(s+1)`); `min_periods` masking is applied by the
callers. -/
def ema_bei (s : ℕ) (xs : List ℚ) (i : ℕ) : ℚ :=
  (ewm_fold (2 / ((s : ℚ) + 1)) (xs.take (i + 1))).getD 0

/-- MACD line `ema12 - ema26` at position `i` (unmasked). -/
def macd_wert (xs : List ℚ) (i : ℕ) : ℚ :=
  ema_bei 12 xs i - ema_bei 26 xs i

/-- `ta.trend.MACD(xs).macd_diff()` at position `i`: the MACD line minus its
9-span signal EMA. The MACD line is `NaN` before position 25 (`min_periods`
26 of the slow EMA), the signal EMA therefore starts its recursion at
position 25, and with `min_periods = 9` the histogram is available from
position 33 on. -/
def macd_diff_at (xs : List ℚ) (i : ℕ) : Option ℚ :=
  if i < xs.length ∧ 33 ≤ i then
    some (macd_wert xs i -
      (ewm_fold (2 / 10) ((List.range' 25 (i - 24)).map (fun j => macd_wert xs j))).getD 0)
  else none

/-- `series.pct_change(20)` at position `i`: `xs[i]/xs[i-20] - 1`,
unavailable before position 20. A zero denominator (impossible for real
price data) is modelled as unavailable, where float arithmetic would give
`±inf`/`NaN`. -/
def pct20_at (xs : List ℚ) (i : ℕ) : Option ℚ :=
  if i < xs.length ∧ 20 ≤ i ∧ xs.getD (i - 20) 0 ≠ 0 then
    some (xs.getD i 0 / xs.getD (i - 20) 0 - 1)
  else none

/-- True range of bar `i`: `max(high-low, |high-prevClose|, |low-prevClose|)`
(`high - low` alone for the first bar, where the previous close is `NaN`
and is skipped by the row-wise `max`). -/
def true_range (df : List Bar) (i : ℕ) : ℚ :=
  let b := df.getD i default
  if i = 0 then b.high - b.low
  else max (b.high - b.low)
    (max |b.high - (df.getD (i - 1) default).close| |b.low - (df.getD (i - 1) default).close|)

/-- Wilder recursion of `ta.volatility.AverageTrueRange` (window 14), shifted
so that `atr_ab df n` is the ATR at position `13 + n`: the seed is the mean
of the first 14 true ranges, then `atr = (atr·13 + tr)/14`. -/
def atr_ab (df : List Bar) : ℕ → ℚ
  | 0 => ((List.range 14).map (true_range df)).sum / 14
  | n + 1 => (atr_ab df n * 13 + true_range df (14 + n)) / 14

/-- `ta.volatility.AverageTrueRange(high, low, close, window=14)
.average_true_range()` at position `i`, unavailable before position 13
(the `ta` array holds zeros there; no caller reads those positions). -/
def atr_at (df : List Bar) (i : ℕ) : Option ℚ :=
  if i < df.length ∧ 13 ≤ i then some (atr_ab df (i - 13)) else none

/-- Right edge (Sunday) of the calendar week of day `d`, the bucket label a
pandas `resample("W")` assigns to that day (day 0 is a Monday). -/
def wochenende (d : ℕ) : ℕ := d + (6 - d % 7)

/-- Helper of `wochen`: runs through the bars carrying the currently open
bucket `(lbl, v)`; a bar of the same week replaces the bucket value (so the
bucket keeps the `last()` close), a bar of a new week emits the bucket. -/
def wochen_hilf (lbl : ℕ) (v : ℚ) : List Bar → List (ℕ × ℚ)
  | [] => [(lbl, v)]
  | b :: rest =>
    if wochenende b.datum = lbl then wochen_hilf lbl b.close rest
    else (lbl, v) :: wochen_hilf (wochenende b.datum) b.close rest

/-- `close.resample("W").last()`: the weekly series as `(bucket label, last
close of the bucket)` pairs. For a date-sorted frame (the data model
requires strictly increasing dates) grouping by bucket label is the same as
grouping consecutive runs of equal labels, which is how this recursion
proceeds. -/
def wochen : List Bar → List (ℕ × ℚ)
  | [] => []
  | b :: rest => wochen_hilf (wochenende b.datum) b.close rest

/-- The 14-period RSI of the weekly series, index-aligned with it:
`ta.momentum.RSIIndicator(weekly, window=14).rsi()`. -/
def wochen_rsi (wk : List (ℕ × ℚ)) : List (ℕ × Option ℚ) :=
  (List.range wk.length).map (fun j => ((wk.getD j (0, 0)).1, rsi_at (wk.map Prod.snd) j))

/-- `spy_returns.pct_change(20)` as a date-indexed series. -/
def reihe_pct20 (sp : List (ℕ × ℚ)) : List (ℕ × Option ℚ) :=
  (List.range sp.length).map (fun j => ((sp.getD j (0, 0)).1, pct20_at (sp.map Prod.snd) j))

/-- `series.asof(d)`: the last available (non-`NaN`) value at a date `≤ d`,
`none` when there is none. -/
def asof (sp : List (ℕ × Option ℚ)) (d : ℕ) : Option ℚ :=
  ((sp.filter (fun e => e.1 ≤ d)).filterMap Prod.snd).getLast?

/-- The precomputed indicator dictionary `s` of `precompute_serien`: each
pandas series is modelled as its positional lookup function. The Python
`try` block cannot fail partway in exact arithmetic (the `ta` calls return
`NaN`-padded series instead of raising on short input), so every key is
present; the two genuinely conditional keys (`weekly_rsi`, `spy_pct20`) are
`Option`s. -/
structure Serien where
  sma200 : ℕ → Option ℚ
  sma50 : ℕ → Option ℚ
  sma20 : ℕ → Option ℚ
  sma10 : ℕ → Option ℚ
  rsi : ℕ → Option ℚ
  macd_diff : ℕ → Option ℚ
  bb_mavg : ℕ → Option ℚ
  bb_var : ℕ → Option ℚ
  vol_ma20 : ℕ → Option ℚ
  high_52w : ℕ → Option ℚ
  low_52w : ℕ → Option ℚ
  pct20 : ℕ → Option ℚ
  atr : ℕ → Option ℚ
  weekly : List (ℕ × ℚ)
  weekly_rsi : Option (List (ℕ × Option ℚ))
  spy_pct20 : Option (List (ℕ × Option ℚ))

/-- `precompute_serien(df, spy_returns)`: builds the indicator set once per
price series. `weekly_rsi` only exists when the weekly series has at least
15 buckets, `spy_pct20` only when a benchmark series of more than 20 samples
was supplied. The Bollinger lower band is represented by its rolling mean
and variance (see `unter_bb`). -/
def precompute_serien (df : List Bar) (spy : Option (List (ℕ × ℚ))) : Serien :=
  let c := closes df
  let wk := wochen df
  { sma200 := sma_at 200 c
    sma50 := sma_at 50 c
    sma20 := sma_at 20 c
    sma10 := sma_at 10 c
    rsi := rsi_at c
    macd_diff := macd_diff_at c
    bb_mavg := sma_at 20 c
    bb_var := rollvar_at 20 c
    vol_ma20 := sma_at 20 (volumes df)
    high_52w := rollmax_at 252 50 c
    low_52w := rollmin_at 252 50 c
    pct20 := pct20_at c
    atr := atr_at df
    weekly := wk
    weekly_rsi := if 15 ≤ wk.length then some (wochen_rsi wk) else none
    spy_pct20 :=
      match spy with
      | some sp => if 20 < sp.length then some (reihe_pct20 sp) else none
      | none => none }

/-- Polarity of a pattern event (`"typ"` field of the ICT detectors). -/
inductive Richtung where
  | bull
  | bear
deriving Repr, DecidableEq

/-- A banded pattern event of `detect_fvg` / `detect_order_blocks`:
`(typ, oben, unten, idx)` dictionaries in the source. -/
structure Zone where
  typ : Richtung
  oben : ℚ
  unten : ℚ
  idx : ℕ
deriving Repr, DecidableEq

/-- A liquidity-sweep event: `(typ, level, idx)` dictionaries. -/
structure Sweep where
  typ : Richtung
  level : ℚ
  idx : ℕ
deriving Repr, DecidableEq

/-- High of bar `i`. -/
def hochAt (df : List Bar) (i : ℕ) : ℚ := (df.getD i default).high

/-- Low of bar `i`. -/
def tiefAt (df : List Bar) (i : ℕ) : ℚ := (df.getD i default).low

/-- Open of bar `i` (`df["Open"]`; the fallback to the close column for a
frame without an Open column never fires for real price data). -/
def offenAt (df : List Bar) (i : ℕ) : ℚ := (df.getD i default).open_

/-- `detect_fvg(df, lookback)`: for `i` in `range(max(0, n-lookback), n-2)`,
a bullish fair value gap when `low[i+2] > high[i]` and a bearish one when
`high[i+2] < low[i]` (both checks independent `if`s). -/
def detect_fvg (df : List Bar) (lookback : ℕ) : List Zone :=
  let n := df.length
  let start := n - lookback
  ((List.range' start (n - 2 - start)).map (fun i =>
    (if tiefAt df (i + 2) > hochAt df i then
      [⟨Richtung.bull, tiefAt df (i + 2), hochAt df i, i⟩] else []) ++
    (if hochAt df (i + 2) < tiefAt df i then
      [⟨Richtung.bear, tiefAt df i, hochAt df (i + 2), i⟩] else []))).flatten

/-- `detect_order_blocks(df, lookback=50, swing_pct=0.015)`: for `i` in
`range(max(1, n-lookback), n-3)` with `close[i+1] ≠ 0`, the 3-bar forward
move from `close[i+1]`; a down candle before a `> +1.5%` move is a bullish
order block, a green candle before a `< -1.5%` move a bearish one
(`if`/`elif`, so mutually exclusive). -/
def detect_order_blocks (df : List Bar) (lookback : ℕ := 50)
    (swing_pct : ℚ := 3 / 200) : List Zone :=
  let n := df.length
  let start := max 1 (n - lookback)
  ((List.range' start (n - 3 - start)).map (fun i =>
    if closeAt df (i + 1) = 0 then []
    else if closeAt df i < offenAt df i ∧
        (closeAt df (i + 3) - closeAt df (i + 1)) / closeAt df (i + 1) > swing_pct then
      [⟨Richtung.bull, offenAt df i, closeAt df i, i⟩]
    else if closeAt df i > offenAt df i ∧
        (closeAt df (i + 3) - closeAt df (i + 1)) / closeAt df (i + 1) < -swing_pct then
      [⟨Richtung.bear, closeAt df i, offenAt df i, i⟩]
    else [])).flatten

/-- Maximum of a list (`max(...)` over a nonempty Python slice). -/
def listen_max (xs : List ℚ) : ℚ := xs.foldl max (xs.headD 0)

/-- Minimum of a list (`min(...)` over a nonempty Python slice). -/
def listen_min (xs : List ℚ) : ℚ := xs.foldl min (xs.headD 0)

/-- The slice `xs[a : a + len]`. -/
def teil (xs : List ℚ) (a len : ℕ) : List ℚ := (xs.drop a).take len

/-- Highs column. -/
def hochs (df : List Bar) : List ℚ := df.map (·.high)

/-- Lows column. -/
def tiefs (df : List Bar) : List ℚ := df.map (·.low)

/-- `detect_liquidity_sweep(df, lookback=20)`: empty when `n < lookback+3`;
for `i` in `range(lookback, n-1)` a bullish sweep when the bar dips below
the rolling low of the preceding `lookback` bars but closes back above it,
and a bearish sweep symmetrically at the rolling high (both independent). -/
def detect_liquidity_sweep (df : List Bar) (lookback : ℕ := 20) : List Sweep :=
  let n := df.length
  if n < lookback + 3 then []
  else
    ((List.range' lookback (n - 1 - lookback)).map (fun i =>
      let recent_high := listen_max (teil (hochs df) (i - lookback) lookback)
      let recent_low := listen_min (teil (tiefs df) (i - lookback) lookback)
      (if tiefAt df i < recent_low ∧ closeAt df i > recent_low then
        [⟨Richtung.bull, recent_low, i⟩] else []) ++
      (if hochAt df i > recent_high ∧ closeAt df i < recent_high then
        [⟨Richtung.bear, recent_high, i⟩] else []))).flatten

/-- `detect_bos(df, lookback=20)`: `none` when `n < lookback+2`; otherwise
compares the last close against the high/low of `highs[-lookback-1:-1]` /
`lows[-lookback-1:-1]` (the `lookback` bars before the last one). -/
def detect_bos (df : List Bar) (lookback : ℕ := 20) : Option Richtung :=
  let n := df.length
  if n < lookback + 2 then none
  else
    let recent_high := listen_max (teil (hochs df) (n - 1 - lookback) lookback)
    let recent_low := listen_min (teil (tiefs df) (n - 1 - lookback) lookback)
    if closeAt df (n - 1) > recent_high then some Richtung.bull
    else if closeAt df (n - 1) < recent_low then some Richtung.bear
    else none

/-- One entry of the `details` dictionary of the scorer: either a signed
point delta under its factor key (the strings `"+1"`, `"-3"`, `"+1 (4.2%)"`
… of the source, with the display decoration dropped), the raw RSI value
(`details["rsi_raw"]`), or the trend entry (`details["trend"]`, the strings
`"+d"`, `"-d"`, `"="` represented by the signed difference they encode). -/
inductive Detail where
  | delta (schluessel : String) (wert : ℤ)
  | rsiRoh (wert : ℚ)
  | trendNotiz (wert : ℤ)
deriving Repr, DecidableEq

/-- Sum of the signed point deltas of a detail list; the `rsi_raw` and
`trend` entries carry no delta. -/
def detail_summe (ds : List Detail) : ℤ :=
  (ds.map (fun d => match d with | .delta _ k => k | _ => 0)).sum

/-- FVG contribution of `score_ict`: `+2` when the latest close lies inside
some bullish fair value gap. -/
def ict_fvg_bull (fvgs : List Zone) (kurs : ℚ) : ℤ × List Detail :=
  if fvgs.any (fun g => g.typ = Richtung.bull ∧ g.unten ≤ kurs ∧ kurs ≤ g.oben) then
    (2, [.delta "FVG-Bull" 2])
  else (0, [])

/-- FVG contribution: `-2` when the latest close lies inside some bearish
fair value gap. -/
def ict_fvg_bear (fvgs : List Zone) (kurs : ℚ) : ℤ × List Detail :=
  if fvgs.any (fun g => g.typ = Richtung.bear ∧ g.unten ≤ kurs ∧ kurs ≤ g.oben) then
    (-2, [.delta "FVG-Bear" (-2)])
  else (0, [])

/-- Order-block contribution: `+2` when the latest close lies inside some
bullish order block. -/
def ict_ob_bull (obs : List Zone) (kurs : ℚ) : ℤ × List Detail :=
  if obs.any (fun o => o.typ = Richtung.bull ∧ o.unten ≤ kurs ∧ kurs ≤ o.oben) then
    (2, [.delta "OB-Bull" 2])
  else (0, [])

/-- Order-block contribution: `-2` for a bearish order block. -/
def ict_ob_bear (obs : List Zone) (kurs : ℚ) : ℤ × List Detail :=
  if obs.any (fun o => o.typ = Richtung.bear ∧ o.unten ≤ kurs ∧ kurs ≤ o.oben) then
    (-2, [.delta "OB-Bear" (-2)])
  else (0, [])

/-- Sweep contribution: `+1` when a bullish liquidity sweep is anchored in
the last 3 bars (`s["idx"] >= len(df) - 3`). -/
def ict_sweep_bull (sweeps : List Sweep) (n : ℕ) : ℤ × List Detail :=
  if (sweeps.filter (fun s => n - 3 ≤ s.idx)).any (fun s => s.typ = Richtung.bull) then
    (1, [.delta "Sweep-Bull" 1])
  else (0, [])

/-- Sweep contribution: `-1` for a recent bearish sweep. -/
def ict_sweep_bear (sweeps : List Sweep) (n : ℕ) : ℤ × List Detail :=
  if (sweeps.filter (fun s => n - 3 ≤ s.idx)).any (fun s => s.typ = Richtung.bear) then
    (-1, [.delta "Sweep-Bear" (-1)])
  else (0, [])

/-- Break-of-structure contribution: `+1` bullish, `-1` bearish, `0` none. -/
def ict_bos (bos : Option Richtung) : ℤ × List Detail :=
  match bos with
  | some Richtung.bull => (1, [.delta "BOS-Bull" 1])
  | some Richtung.bear => (-1, [.delta "BOS-Bear" (-1)])
  | none => (0, [])

/-- `score_ict(df, lookback=20)`: the ICT pattern bonus added to the base
score. `(0, empty)` for frames of fewer than 50 rows; otherwise the sum of
the FVG, order-block, liquidity-sweep and break-of-structure contributions,
each at most one bullish and one bearish verdict of fixed magnitude, the
details accumulated in source order. -/
def score_ict (df : List Bar) (lookback : ℕ := 20) : ℤ × List Detail :=
  if df.length < 50 then (0, [])
  else
    let kurs := closeAt df (df.length - 1)
    let f_bull := ict_fvg_bull (detect_fvg df lookback) kurs
    let f_bear := ict_fvg_bear (detect_fvg df lookback) kurs
    let o_bull := ict_ob_bull (detect_order_blocks df) kurs
    let o_bear := ict_ob_bear (detect_order_blocks df) kurs
    let s_bull := ict_sweep_bull (detect_liquidity_sweep df lookback) df.length
    let s_bear := ict_sweep_bear (detect_liquidity_sweep df lookback) df.length
    let b := ict_bos (detect_bos df lookback)
    (f_bull.1 + f_bear.1 + o_bull.1 + o_bear.1 + s_bull.1 + s_bear.1 + b.1,
     f_bull.2 ++ f_bear.2 ++ o_bull.2 ++ o_bear.2 ++ s_bull.2 ++ s_bear.2 ++ b.2)

/-- SMA200 rule of `berechne_score`: `+1` above the 200-bar average, `-3`
below; skipped when the average is unavailable. -/
def faktor_sma200 (kurs : ℚ) (v : Option ℚ) : ℤ × List Detail :=
  match v with
  | some sma => if kurs > sma then (1, [.delta "SMA200" 1]) else (-3, [.delta "SMA200" (-3)])
  | none => (0, [])

/-- Golden-cross rule: `+1` when SMA50 > SMA200, needing both averages. -/
def faktor_cross (v50 v200 : Option ℚ) : ℤ × List Detail :=
  match v50, v200 with
  | some a, some b => if a > b then (1, [.delta "Cross" 1]) else (0, [])
  | _, _ => (0, [])

/-- RSI rule: records the raw value under `rsi_raw`, then the banded delta
(`<35: +2`, `<50: +1`, `>75: -2`, `>70: -1`, otherwise no entry). -/
def faktor_rsi (r : Option ℚ) : ℤ × List Detail :=
  match r with
  | some rv =>
    if rv < 35 then (2, [.rsiRoh rv, .delta "RSI" 2])
    else if rv < 50 then (1, [.rsiRoh rv, .delta "RSI" 1])
    else if rv > 75 then (-2, [.rsiRoh rv, .delta "RSI" (-2)])
    else if rv > 70 then (-1, [.rsiRoh rv, .delta "RSI" (-1)])
    else (0, [.rsiRoh rv])
  | none => (0, [])

/-- MACD-histogram rule: `+1` if positive, else `-1`. -/
def faktor_macd (v : Option ℚ) : ℤ × List Detail :=
  match v with
  | some h => if h > 0 then (1, [.delta "MACD" 1]) else (-1, [.delta "MACD" (-1)])
  | none => (0, [])

/-- SMA20 rule: `+1` when the close is above the 20-bar average. -/
def faktor_sma20 (kurs : ℚ) (v : Option ℚ) : ℤ × List Detail :=
  match v with
  | some sma => if kurs > sma then (1, [.delta "SMA20" 1]) else (0, [])
  | none => (0, [])

/-- SMA10 rule: `-1` when the close is below the 10-bar average. -/
def faktor_sma10 (kurs : ℚ) (v : Option ℚ) : ℤ × List Detail :=
  match v with
  | some sma => if kurs < sma then (-1, [.delta "SMA10" (-1)]) else (0, [])
  | none => (0, [])

/-- Bollinger rule: `+1` when the close is below the lower band
(`mavg - 2·std`, encoded square-free by `unter_bb`). -/
def faktor_bb (kurs : ℚ) (m v : Option ℚ) : ℤ × List Detail :=
  match m, v with
  | some mavg, some var =>
    if unter_bb kurs mavg var then (1, [.delta "BB" 1]) else (0, [])
  | _, _ => (0, [])

/-- Volume rule: `+1` when the bar volume exceeds 1.5× its 20-bar average
(requiring a positive average). -/
def faktor_vol (vol : ℚ) (m : Option ℚ) : ℤ × List Detail :=
  match m with
  | some ma => if ma > 0 ∧ vol > ma * (3 / 2) then (1, [.delta "Vol" 1]) else (0, [])
  | none => (0, [])

/-- Weekly rule: `+1` when the last weekly resample close exceeds the
previous one (needs at least two buckets). -/
def faktor_weekly (wk : List (ℕ × ℚ)) : ℤ × List Detail :=
  match wk.reverse with
  | a :: b :: _ => if a.2 > b.2 then (1, [.delta "Weekly" 1]) else (0, [])
  | _ => (0, [])

/-- Weekly-RSI rule: `-1` when the weekly series has at least 15 buckets and
its 14-period RSI at the last bucket exceeds 80. -/
def faktor_wrsi (wk : List (ℕ × ℚ)) : ℤ × List Detail :=
  if 15 ≤ wk.length then
    match rsi_at (wk.map Prod.snd) (wk.length - 1) with
    | some r => if r > 80 then (-1, [.delta "W-RSI>80" (-1)]) else (0, [])
    | none => (0, [])
  else (0, [])

/-- Relative-strength rule: the stock's 20-bar return minus the benchmark's
20-bar return, `+1` above `+0.02`, `-1` below `-0.02`; both series need more
than one sample and both returns must be available. -/
def faktor_rs (spy : List (ℕ × ℚ)) (c : List ℚ) : ℤ × List Detail :=
  if 1 < spy.length ∧ 1 < c.length then
    match pct20_at (spy.map Prod.snd) (spy.length - 1), pct20_at c (c.length - 1) with
    | some spy_ret, some stock_ret =>
      if stock_ret - spy_ret > 1 / 50 then (1, [.delta "RS" 1])
      else if stock_ret - spy_ret < -(1 / 50) then (-1, [.delta "RS" (-1)])
      else (0, [])
    | _, _ => (0, [])
  else (0, [])

/-- 52-week rule: `+2` within 10% of the 252-bar high, else `+1` within 10%
of the 252-bar low; requires both to be available and positive. -/
def faktor_52w (kurs : ℚ) (h l : Option ℚ) : ℤ × List Detail :=
  match h, l with
  | some h52, some l52 =>
    if h52 > 0 ∧ l52 > 0 then
      if (h52 - kurs) / h52 < 1 / 10 then (2, [.delta "52W-H" 2])
      else if (kurs - l52) / l52 < 1 / 10 then (1, [.delta "52W-L" 1])
      else (0, [])
    else (0, [])
  | _, _ => (0, [])

/-- Gap rule: a move of more than 3% against the previous close scores `+1`
rising, `-1` falling (the source decorates the entry with the magnitude). -/
def faktor_gap (kurs prev : ℚ) : ℤ × List Detail :=
  if prev > 0 ∧ |kurs / prev - 1| * 100 > 3 then
    if kurs > prev then (1, [.delta "Gap+" 1]) else (-1, [.delta "Gap-" (-1)])
  else (0, [])

/-- `berechne_score(df, spy_returns, _compute_trend=False)`: the base rules
evaluated at the last bar, plus the ICT bonus, with the factor breakdown
accumulated in source order. `(0, empty)` under 50 bars. The benchmark
series is the explicit `spy_returns` argument (the global SPY cache the
source falls back to is an external collaborator). -/
def berechne_score_kern (df : List Bar) (spy : List (ℕ × ℚ)) : ℤ × List Detail :=
  if df.length < 50 then (0, [])
  else
    let n := df.length
    let c := closes df
    let kurs := closeAt df (n - 1)
    let wk := wochen df
    let f1 := faktor_sma200 kurs (sma_at 200 c (n - 1))
    let f2 := faktor_cross (sma_at 50 c (n - 1)) (sma_at 200 c (n - 1))
    let f3 := faktor_rsi (rsi_at c (n - 1))
    let f4 := faktor_macd (macd_diff_at c (n - 1))
    let f5 := faktor_sma20 kurs (sma_at 20 c (n - 1))
    let f6 := faktor_sma10 kurs (sma_at 10 c (n - 1))
    let f7 := faktor_bb kurs (sma_at 20 c (n - 1)) (rollvar_at 20 c (n - 1))
    let f8 := faktor_vol ((volumes df).getD (n - 1) 0) (sma_at 20 (volumes df) (n - 1))
    let f9 := faktor_weekly wk
    let f10 := faktor_wrsi wk
    let f11 := faktor_rs spy c
    let f12 := faktor_52w kurs (rollmax_at 252 50 c (n - 1)) (rollmin_at 252 50 c (n - 1))
    let f13 := if 2 ≤ n then faktor_gap kurs (closeAt df (n - 2)) else (0, [])
    let ict := score_ict df
    (f1.1 + f2.1 + f3.1 + f4.1 + f5.1 + f6.1 + f7.1 + f8.1 + f9.1 + f10.1 + f11.1 +
       f12.1 + f13.1 + ict.1,
     f1.2 ++ f2.2 ++ f3.2 ++ f4.2 ++ f5.2 ++ f6.2 ++ f7.2 ++ f8.2 ++ f9.2 ++ f10.2 ++
       f11.2 ++ f12.2 ++ f13.2 ++ ict.2)

/-- `berechne_score(df, spy_returns, _compute_trend)`: with the trend flag
set and at least 55 bars, the source re-invokes itself on `df.iloc[:-5]`
with `_compute_trend=False` — which is exactly `berechne_score_kern` — and
records `score_now - score_5_bars_ago` as the `trend` entry, leaving the
returned score unchanged; the flag caps the recursion at depth 1. -/
def berechne_score (df : List Bar) (spy : List (ℕ × ℚ))
    (computeTrend : Bool := true) : ℤ × List Detail :=
  let basis := berechne_score_kern df spy
  if computeTrend ∧ 55 ≤ df.length then
    (basis.1,
     basis.2 ++ [.trendNotiz (basis.1 - (berechne_score_kern (df.take (df.length - 5)) spy).1)])
  else basis

/-- SMA200 rule of `score_bei_index`: `+1`/`-3` around the 200-bar
average. -/
def punkt_sma200 (kurs : ℚ) : Option ℚ → ℤ
  | some v => if kurs > v then 1 else -3
  | none => 0

/-- Golden-cross rule of `score_bei_index`. -/
def punkt_cross : Option ℚ → Option ℚ → ℤ
  | some a, some b => if a > b then 1 else 0
  | _, _ => 0

/-- RSI band rule of `score_bei_index`. -/
def punkt_rsi : Option ℚ → ℤ
  | some r =>
    if r < 35 then 2 else if r < 50 then 1
    else if r > 75 then -2 else if r > 70 then -1 else 0
  | none => 0

/-- MACD-histogram rule of `score_bei_index`. -/
def punkt_macd : Option ℚ → ℤ
  | some v => if v > 0 then 1 else -1
  | none => 0

/-- SMA20 rule of `score_bei_index`. -/
def punkt_sma20 (kurs : ℚ) : Option ℚ → ℤ
  | some v => if kurs > v then 1 else 0
  | none => 0

/-- SMA10 rule of `score_bei_index`. -/
def punkt_sma10 (kurs : ℚ) : Option ℚ → ℤ
  | some v => if kurs < v then -1 else 0
  | none => 0

/-- Bollinger rule of `score_bei_index` (square-free band comparison). -/
def punkt_bb (kurs : ℚ) : Option ℚ → Option ℚ → ℤ
  | some m, some v => if unter_bb kurs m v then 1 else 0
  | _, _ => 0

/-- Volume rule of `score_bei_index`. -/
def punkt_vol (vol : ℚ) : Option ℚ → ℤ
  | some m => if m > 0 ∧ vol > m * (3 / 2) then 1 else 0
  | none => 0

/-- Weekly rule of `score_bei_index`, applied to the weekly buckets dated at
or before the evaluation bar (`wb = w[w.index <= df.index[i]]`). -/
def punkt_weekly (wb : List (ℕ × ℚ)) : ℤ :=
  match wb.reverse with
  | a :: b :: _ => if a.2 > b.2 then 1 else 0
  | _ => 0

/-- Weekly-RSI rule of `score_bei_index`, applied to the (optional) weekly
RSI series restricted to buckets dated at or before the evaluation bar. -/
def punkt_wrsi : Option (List (ℕ × Option ℚ)) → ℤ
  | some wrb =>
    match wrb.getLast? with
    | some (_, some r) => if r > 80 then -1 else 0
    | _ => 0
  | none => 0

/-- Relative-strength rule of `score_bei_index`: benchmark 20-bar return
looked up by `asof` on the bar date, stock 20-bar return from the set. -/
def punkt_rs : Option ℚ → Option ℚ → ℤ
  | some spy_ret, some stock_ret =>
    if stock_ret - spy_ret > 1 / 50 then 1
    else if stock_ret - spy_ret < -(1 / 50) then -1 else 0
  | _, _ => 0

/-- 52-week high/low rule of `score_bei_index`. -/
def punkt_52w (kurs : ℚ) : Option ℚ → Option ℚ → ℤ
  | some h52, some l52 =>
    if h52 > 0 ∧ l52 > 0 then
      if (h52 - kurs) / h52 < 1 / 10 then 2
      else if (kurs - l52) / l52 < 1 / 10 then 1 else 0
    else 0
  | _, _ => 0

/-- Gap rule of `score_bei_index` (only from the second bar on). -/
def punkt_gap (i : ℕ) (kurs prev : ℚ) : ℤ :=
  if 1 ≤ i then
    if prev > 0 ∧ |kurs / prev - 1| * 100 > 3 then
      if kurs > prev then 1 else -1
    else 0
  else 0

/-- The thirteen base rules of `score_bei_index` at position `i`, every
indicator read from the precomputed set `s`. -/
def score_basis (i : ℕ) (df : List Bar) (s : Serien) : ℤ :=
  let kurs := closeAt df i
  punkt_sma200 kurs (s.sma200 i) +
  punkt_cross (s.sma50 i) (s.sma200 i) +
  punkt_rsi (s.rsi i) +
  punkt_macd (s.macd_diff i) +
  punkt_sma20 kurs (s.sma20 i) +
  punkt_sma10 kurs (s.sma10 i) +
  punkt_bb kurs (s.bb_mavg i) (s.bb_var i) +
  punkt_vol ((volumes df).getD i 0) (s.vol_ma20 i) +
  punkt_weekly (s.weekly.filter (fun e => e.1 ≤ datumAt df i)) +
  punkt_wrsi (s.weekly_rsi.map (fun wr => wr.filter (fun e => e.1 ≤ datumAt df i))) +
  punkt_rs (s.spy_pct20.bind (fun sp => asof sp (datumAt df i))) (s.pct20 i) +
  punkt_52w kurs (s.high_52w i) (s.low_52w i) +
  punkt_gap i kurs (closeAt df (i - 1))

/-- `score_bei_index(i, df, s)`: the backtest scorer, reading every
indicator value from the precomputed set `s` at position `i` and consulting
only the weekly buckets and benchmark samples dated at or before bar `i`.
The ICT bonus is added only when `i` is the final index of the frame. The
source's guards `not s` (empty dict — unreachable, `precompute_serien`
cannot fail in exact arithmetic), `i < 0` (the index is a `ℕ` here) and
`pd.isna(kurs)` (no `NaN` closes in the model) are subsumed; `i >= len(df)`
and `kurs <= 0` return 0 as in the source. -/
def score_bei_index (i : ℕ) (df : List Bar) (s : Serien) : ℤ :=
  if df.length ≤ i then 0
  else if closeAt df i ≤ 0 then 0
  else if i = df.length - 1 then score_basis i df s + (score_ict df).1
  else score_basis i df s

/-- Categorical signal (`LONG` / `SHORT` / `NEUTRAL`). -/
inductive Signal where
  | long
  | short
  | neutral
deriving Repr, DecidableEq

/-- Exit reason of a simulated trade (`"Zeit"` / `"SL"`). -/
inductive ExitGrund where
  | zeit
  | sl
deriving Repr, DecidableEq

/-- One recorded backtest trade. The source's dict stores the entry date,
signal, prices, return, profit and exit reason; the model additionally keeps
the entry/exit bar indices (the loop variables `i` and `exit_idx` of the
source), which the non-overlap property is about. -/
structure Trade where
  entryIdx : ℕ
  exitIdx : ℕ
  signal : Signal
  kauf : ℚ
  verkauf : ℚ
  ret : ℚ
  gewinn : ℚ
  exitGrund : ExitGrund
deriving Repr, DecidableEq

/-- Mutable state of the per-ticker backtest loop: `next_idx`, the trade
list, the running equity and the equity curve. -/
structure BtZustand where
  nextIdx : ℕ
  trades : List Trade
  equity : ℚ
  equityKurve : List ℚ
deriving Repr

/-- Configuration of `cmd_backtest` relevant to one ticker: holding period,
round-trip cost basis, stop-loss/trailing switches, the capital allocated to
the ticker, and the currency conversion `to_eur(value, …, last_price)` —
an external collaborator, modelled as an opaque function of the value and
the reference price. -/
structure BtParams where
  haltezeit : ℕ
  kostenEur : ℚ
  useSl : Bool
  useTrailing : Bool
  tickerDepot : ℚ
  toEur : ℚ → ℚ → ℚ

/-- `check_tage = list(range(60, len(df) - haltezeit, 5))`: every 5th bar
from bar 60 (inclusive) up to `len - haltezeit` (exclusive). -/
def check_tage (n haltezeit : ℕ) : List ℕ :=
  List.range' 60 ((n - haltezeit - 60 + 4) / 5) 5

/-- Python `int()` applied to a rational: truncation toward zero. -/
def trunc_q (q : ℚ) : ℤ := if 0 ≤ q then ⌊q⌋ else -⌊-q⌋

/-- The percentile classification inside the backtest loop: with fewer than
5 scores gathered no classification is made (`continue`); otherwise the
population is sorted, the long threshold is the sorted value at index
`int(n*0.8) = ⌊4n/5⌋` and the short threshold the one at `int(n*0.2) =
⌊n/5⌋` (for the population sizes involved the float products `n*0.8`,
`n*0.2` truncate to exactly these integers); coinciding thresholds classify
everything Neutral (`continue`), else `score >= long_th` is Long and
`score <= short_th` is Short, in that order. -/
def backtest_signal (past : List ℤ) (score : ℤ) : Signal :=
  if past.length < 5 then Signal.neutral
  else
    let ps := past.insertionSort (· ≤ ·)
    let long_th := ps.getD (4 * past.length / 5) 0
    let short_th := ps.getD (past.length / 5) 0
    if long_th = short_th then Signal.neutral
    else if score ≥ long_th then Signal.long
    else if score ≤ short_th then Signal.short
    else Signal.neutral

/-- Day-by-day forward scan of an open LONG trade over the bars
`j = i+1 … end_idx`: with trailing enabled the stop ratchets to
`peak - 2·ATR` whenever a new favorable extreme is set; with stop-loss
enabled the scan exits at the first bar whose converted close breaches the
stop, otherwise the trade runs to the horizon (`exit_reason = "Zeit"`). -/
def scan_long (toEur : ℚ → ℚ → ℚ) (df : List Bar) (kaufRaw atrEur : ℚ)
    (useTrail useSl : Bool) (endIdx : ℕ) :
    List ℕ → ℚ → Option ℚ → ℕ × ExitGrund
  | [], _, _ => (endIdx, ExitGrund.zeit)
  | j :: rest, peak, stop =>
    let curEur := toEur (closeAt df j) kaufRaw
    let peak2 := if useTrail ∧ curEur > peak then curEur else peak
    let stop2 := if useTrail ∧ curEur > peak then some (curEur - 2 * atrEur) else stop
    if useSl && (match stop2 with | some s => decide (curEur ≤ s) | none => false) then
      (j, ExitGrund.sl)
    else scan_long toEur df kaufRaw atrEur useTrail useSl endIdx rest peak2 stop2

/-- Forward scan of an open SHORT trade: the trailing stop follows the
running low (`floor + 2·ATR`), a breach from below exits with `"SL"`. -/
def scan_short (toEur : ℚ → ℚ → ℚ) (df : List Bar) (kaufRaw atrEur : ℚ)
    (useTrail useSl : Bool) (endIdx : ℕ) :
    List ℕ → ℚ → Option ℚ → ℕ × ExitGrund
  | [], _, _ => (endIdx, ExitGrund.zeit)
  | j :: rest, floor_, stop =>
    let curEur := toEur (closeAt df j) kaufRaw
    let floor2 := if useTrail ∧ curEur < floor_ then curEur else floor_
    let stop2 := if useTrail ∧ curEur < floor_ then some (curEur + 2 * atrEur) else stop
    if useSl && (match stop2 with | some s => decide (curEur ≥ s) | none => false) then
      (j, ExitGrund.sl)
    else scan_short toEur df kaufRaw atrEur useTrail useSl endIdx rest floor2 stop2

/-- One iteration of the backtest loop at `(idx, i) = enumerate(check_tage)`:
checkpoints before `next_idx` are skipped; the population
`scores_all[:idx+1]` is classified; a LONG/SHORT verdict opens a trade with
ATR-based risk sizing, scans forward for the exit, realizes P&L net of the
round-trip cost, appends to the equity curve and advances `next_idx` to the
exit index. -/
def backtest_schritt (p : BtParams) (df : List Bar) (atrS : ℕ → Option ℚ)
    (scoresAll : List ℤ) (st : BtZustand) (ie : ℕ × ℕ) : BtZustand :=
  let idx := ie.1
  let i := ie.2
  if i < st.nextIdx then st
  else
    let score := scoresAll.getD idx 0
    let past := scoresAll.take (idx + 1)
    match backtest_signal past score with
    | Signal.neutral => st
    | sig =>
      let kaufRaw := closeAt df i
      let kaufEur := p.toEur kaufRaw kaufRaw
      let atrEur :=
        match atrS i with
        | some a => if a = 0 then kaufEur * (1 / 40) else p.toEur a kaufRaw
        | none => kaufEur * (1 / 40)
      let slDist := max (2 * atrEur) (kaufEur * (1 / 50))
      let stueck : ℤ := if slDist > 0 then trunc_q (p.tickerDepot * (1 / 50) / slDist) else 1
      let kosten := p.kostenEur * 2
      let endIdx := min (i + p.haltezeit) (df.length - 1)
      let js := List.range' (i + 1) (endIdx - i)
      let ergebnis :=
        match sig with
        | Signal.short =>
          scan_short p.toEur df kaufRaw atrEur p.useTrailing p.useSl endIdx js kaufEur
            (if p.useSl then some (kaufEur + 2 * atrEur) else none)
        | _ =>
          scan_long p.toEur df kaufRaw atrEur p.useTrailing p.useSl endIdx js kaufEur
            (if p.useSl then some (kaufEur - 2 * atrEur) else none)
      let exitIdx := ergebnis.1
      let verkRaw := closeAt df exitIdx
      let verkEur := p.toEur verkRaw kaufRaw
      let ret := if sig = Signal.short then (kaufRaw / verkRaw - 1) * 100
                 else (verkRaw / kaufRaw - 1) * 100
      let gewinn := (if sig = Signal.short then kaufEur - verkEur else verkEur - kaufEur)
                      * (stueck : ℚ) - kosten
      { nextIdx := exitIdx,
        trades := st.trades ++
          [⟨i, exitIdx, sig, kaufEur, verkEur, ret, gewinn, ergebnis.2⟩],
        equity := st.equity + gewinn,
        equityKurve := st.equityKurve ++ [st.equity + gewinn] }

/-- The whole per-ticker backtest loop, folding `backtest_schritt` over
`enumerate(check_tage)` from the initial state (no open trade, the equity
curve seeded with the allocated capital). The score population is taken as
a parameter, exactly as the loop reads the precomputed `scores_all` list. -/
def backtest_lauf (p : BtParams) (df : List Bar) (atrS : ℕ → Option ℚ)
    (scoresAll : List ℤ) : BtZustand :=
  ((check_tage df.length p.haltezeit).enum).foldl
    (backtest_schritt p df atrS scoresAll)
    ⟨0, [], p.tickerDepot, [p.tickerDepot]⟩

/-- The per-ticker part of `cmd_backtest`: skip (`none`) under 100 bars or
without checkpoints, otherwise precompute the indicator set, score every
checkpoint with `score_bei_index` and run the loop. -/
def cmd_backtest_ticker (p : BtParams) (df : List Bar)
    (spy : Option (List (ℕ × ℚ))) : Option BtZustand :=
  if df.length < 100 then none
  else if check_tage df.length p.haltezeit = [] then none
  else
    let serien := precompute_serien df spy
    some (backtest_lauf p df serien.atr
      ((check_tage df.length p.haltezeit).map (fun i => score_bei_index i df serien)))

/-- Loop invariant of the backtest fold: every recorded trade closes no
later than the resume pointer `next_idx`, entries never exceed exits, and
the trade list is chronologically ordered — each later trade enters no
earlier than every earlier trade exits. -/
def BtInvariante (st : BtZustand) : Prop :=
  (∀ t ∈ st.trades, t.entryIdx ≤ t.exitIdx ∧ t.exitIdx ≤ st.nextIdx) ∧
  st.trades.Pairwise (fun a b => a.exitIdx ≤ b.entryIdx)

/-- One step of the drawdown loop: raise the running peak, compute the
drawdown `(peak - v)/peak·100` (0 for a non-positive peak) and keep the
maximum. State is `(peak, max_dd)`. -/
def drawdown_schritt (st : ℚ × ℚ) (v : ℚ) : ℚ × ℚ :=
  let peak := if v > st.1 then v else st.1
  let dd := if peak > 0 then (peak - v) / peak * 100 else 0
  (peak, if dd > st.2 then dd else st.2)

/-- `berechne_max_drawdown(equity_kurve)`: 0 for curves of fewer than two
samples, otherwise the running-peak drawdown maximum over the whole curve. -/
def berechne_max_drawdown (eq : List ℚ) : ℚ :=
  if eq.length < 2 then 0
  else (eq.foldl drawdown_schritt (eq.headD 0, 0)).2

/-- The configured absolute long threshold (`SCORE_LONG = 4`). -/
def SCORE_LONG : ℤ := 4

/-- The configured absolute short threshold (`SCORE_SHORT = 0`). -/
def SCORE_SHORT : ℤ := 0

/-- The absolute classification used by `cmd_portfolio` and the scan/watch
commands: `LONG` iff `score >= SCORE_LONG`, else `SHORT` iff
`score <= SCORE_SHORT`, else `NEUTRAL`. -/
def signal_von_score (score : ℤ) : Signal :=
  if score ≥ SCORE_LONG then Signal.long
  else if score ≤ SCORE_SHORT then Signal.short
  else Signal.neutral

/-- A flat synthetic bar: all four prices equal, volume 1000. -/
def konstBar (d : ℕ) (preis : ℚ) : Bar := ⟨d, preis, preis, preis, preis, 1000⟩

/-- A flat synthetic frame of `n` bars priced `preis` on days `0 … n-1`. -/
def df_konst (n : ℕ) (preis : ℚ) : List Bar :=
  (List.range n).map (fun k => konstBar k preis)

/-- A 40-bar flat frame (below the 50-bar scoring minimum). -/
def df40 : List Bar := df_konst 40 100

/-- A 55-bar flat frame (enough for scoring and the trend annotation). -/
def df55 : List Bar := df_konst 55 100

/-- A 141-bar flat frame (enough for backtesting). -/
def df141 : List Bar := df_konst 141 100

/-- A 52-bar frame, flat at 100 except for a spike to 200 at bar 50: on the
51-bar truncation the spike is a bullish break of structure, so the ICT
bonus of the truncation is nonzero while `score_bei_index` adds no ICT bonus
at the interior index 50 of the full frame. -/
def df_spike : List Bar :=
  (List.range 52).map (fun k => konstBar k (if k = 50 then 200 else 100))

/-- Backtest configuration for the concrete runs: the source defaults
(30-bar holding period, 1 € round-trip cost basis) with stop-loss and
trailing off, 10 000 € allocated, identity currency conversion. -/
def p_test : BtParams := ⟨30, 1, false, false, 10000, fun v _ => v⟩

/-- Score population for the concrete backtest run over `df141` (one score
per checkpoint 60, 65, …, 110): the 5th and 11th checkpoints stand out, so
trades open at bars 80 and 110. -/
def scores_test : List ℤ := [0, 1, 2, 3, 10, 0, 0, 0, 0, 0, 10]

set_option linter.unnecessarySeqFocus false

/-! ## Prefix stability of the pointwise indicators

Every indicator value at position `i` is a function of the bars `0 … i`
alone: computing it on the series truncated after bar `i` gives the same
value. These lemmas drive the anti-lookahead theorem. -/

lemma getD_take_eq {α : Type _} (xs : List α) (d : α) {i k : ℕ} (h : i < k) :
    (xs.take k).getD i d = xs.getD i d := by
  simp [List.getD_eq_getElem?_getD, List.getElem?_take, h]

lemma closes_take (df : List Bar) (k : ℕ) : closes (df.take k) = (closes df).take k := by
  simp [closes, List.map_take]

lemma volumes_take (df : List Bar) (k : ℕ) :
    volumes (df.take k) = (volumes df).take k := by
  simp [volumes, List.map_take]

lemma closeAt_take (df : List Bar) {i k : ℕ} (h : i < k) :
    closeAt (df.take k) i = closeAt df i := by
  rw [closeAt, closeAt, closes_take, getD_take_eq _ _ h]

lemma datumAt_take (df : List Bar) {i k : ℕ} (h : i < k) :
    datumAt (df.take k) i = datumAt df i := by
  rw [datumAt, datumAt, getD_take_eq _ _ h]

lemma length_take_eins {α : Type _} (xs : List α) {i : ℕ} (h : i < xs.length) :
    (xs.take (i + 1)).length = i + 1 := by
  rw [List.length_take]; omega

lemma sma_at_take (w : ℕ) (xs : List ℚ) {i : ℕ} (h : i < xs.length) :
    sma_at w (xs.take (i + 1)) i = sma_at w xs i := by
  unfold sma_at fenster
  rw [List.take_take, length_take_eins xs h]
  simp [h, Nat.lt_succ_self]

lemma rollmax_at_take (w minp : ℕ) (xs : List ℚ) {i : ℕ} (h : i < xs.length) :
    rollmax_at w minp (xs.take (i + 1)) i = rollmax_at w minp xs i := by
  unfold rollmax_at fenster
  rw [List.take_take, length_take_eins xs h]
  simp [h, Nat.lt_succ_self]

lemma rollmin_at_take (w minp : ℕ) (xs : List ℚ) {i : ℕ} (h : i < xs.length) :
    rollmin_at w minp (xs.take (i + 1)) i = rollmin_at w minp xs i := by
  unfold rollmin_at fenster
  rw [List.take_take, length_take_eins xs h]
  simp [h, Nat.lt_succ_self]

lemma rollvar_at_take (w : ℕ) (xs : List ℚ) {i : ℕ} (h : i < xs.length) :
    rollvar_at w (xs.take (i + 1)) i = rollvar_at w xs i := by
  unfold rollvar_at fenster
  rw [List.take_take, length_take_eins xs h]
  simp [h, Nat.lt_succ_self]

lemma rsi_at_take (xs : List ℚ) {i : ℕ} (h : i < xs.length) :
    rsi_at (xs.take (i + 1)) i = rsi_at xs i := by
  unfold rsi_at
  rw [List.take_take, length_take_eins xs h]
  simp [h, Nat.lt_succ_self]

lemma ema_bei_take (s : ℕ) (xs : List ℚ) {j i : ℕ} (h : j ≤ i) :
    ema_bei s (xs.take (i + 1)) j = ema_bei s xs j := by
  unfold ema_bei
  rw [List.take_take, min_eq_left (show j + 1 ≤ i + 1 by omega)]

lemma macd_wert_take (xs : List ℚ) {j i : ℕ} (h : j ≤ i) :
    macd_wert (xs.take (i + 1)) j = macd_wert xs j := by
  unfold macd_wert
  rw [ema_bei_take _ _ h, ema_bei_take _ _ h]

lemma macd_diff_at_take (xs : List ℚ) {i : ℕ} (h : i < xs.length) :
    macd_diff_at (xs.take (i + 1)) i = macd_diff_at xs i := by
  unfold macd_diff_at
  rw [length_take_eins xs h]
  by_cases h33 : 33 ≤ i
  · rw [if_pos ⟨Nat.lt_succ_self i, h33⟩, if_pos ⟨h, h33⟩]
    rw [macd_wert_take xs le_rfl]
    congr 3
    refine congrArg _ (List.map_congr_left fun j hj => ?_)
    rw [List.mem_range'] at hj
    obtain ⟨k, hk, rfl⟩ := hj
    exact macd_wert_take xs (by omega)
  · rw [if_neg (by omega), if_neg (by omega)]

lemma pct20_at_take (xs : List ℚ) {i : ℕ} (h : i < xs.length) :
    pct20_at (xs.take (i + 1)) i = pct20_at xs i := by
  unfold pct20_at
  rw [length_take_eins xs h, getD_take_eq _ _ (show i < i + 1 by omega),
    getD_take_eq _ _ (show i - 20 < i + 1 by omega)]
  simp [h, Nat.lt_succ_self]

/-! ## Weekly resample: only buckets dated at or before bar `i` matter

`score_bei_index` consults `w[w.index <= df.index[i]]`; with strictly
increasing dates those buckets — labels and `last()` values — are identical
whether the resample ran on the whole frame or on its prefix `0 … i`. -/

lemma wochenende_eq (d : ℕ) : wochenende d = 7 * (d / 7) + 6 := by
  unfold wochenende; omega

lemma le_wochenende (d : ℕ) : d ≤ wochenende d := by
  unfold wochenende; omega

lemma wochenende_mono {d e : ℕ} (h : d ≤ e) : wochenende d ≤ wochenende e := by
  rw [wochenende_eq, wochenende_eq]
  have := Nat.div_le_div_right (c := 7) h
  omega

lemma wochen_hilf_filter_leer (D : ℕ) :
    ∀ (l : List Bar) (lbl : ℕ) (v : ℚ), D < lbl → (∀ b ∈ l, D < wochenende b.datum) →
      (wochen_hilf lbl v l).filter (fun e => e.1 ≤ D) = []
  | [], lbl, v, hlbl, _ => by
    simp [wochen_hilf]
    omega
  | b :: t, lbl, v, hlbl, hall => by
    unfold wochen_hilf
    by_cases hb : wochenende b.datum = lbl
    · rw [if_pos hb]
      exact wochen_hilf_filter_leer D t lbl b.close hlbl
        (fun b' h' => hall b' (List.mem_cons_of_mem _ h'))
    · rw [if_neg hb, List.filter_cons, if_neg (by simp; omega)]
      exact wochen_hilf_filter_leer D t (wochenende b.datum) b.close
        (hall b (List.mem_cons_self _ _))
        (fun b' h' => hall b' (List.mem_cons_of_mem _ h'))

lemma wochen_hilf_filter_append (D : ℕ) (B : List Bar)
    (hB : ∀ b ∈ B, D < wochenende b.datum) :
    ∀ (A : List Bar) (lbl : ℕ) (v : ℚ),
      (wochen_hilf lbl v (A ++ B)).filter (fun e => e.1 ≤ D) =
      (wochen_hilf lbl v A).filter (fun e => e.1 ≤ D)
  | [], lbl, v => by
    rw [List.nil_append]
    cases B with
    | nil => rfl
    | cons b rest =>
      have hb : D < wochenende b.datum := hB b (List.mem_cons_self _ _)
      have hrest : ∀ b' ∈ rest, D < wochenende b'.datum :=
        fun b' h' => hB b' (List.mem_cons_of_mem _ h')
      unfold wochen_hilf
      by_cases hbl : wochenende b.datum = lbl
      · rw [if_pos hbl]
        rw [wochen_hilf_filter_leer D rest lbl b.close (hbl ▸ hb) hrest]
        rw [List.filter_cons, if_neg (by simp; omega), List.filter_nil]
      · rw [if_neg hbl, List.filter_cons,
          wochen_hilf_filter_leer D rest (wochenende b.datum) b.close hb hrest,
          List.filter_cons, List.filter_nil]
  | a :: t, lbl, v => by
    rw [List.cons_append]
    unfold wochen_hilf
    by_cases h : wochenende a.datum = lbl
    · rw [if_pos h, if_pos h]
      exact wochen_hilf_filter_append D B hB t lbl a.close
    · rw [if_neg h, if_neg h, List.filter_cons, List.filter_cons,
        wochen_hilf_filter_append D B hB t (wochenende a.datum) a.close]

lemma wochen_filter_stabil (df : List Bar) {i : ℕ}
    (hdat : df.Pairwise (fun a b => a.datum < b.datum)) (h : i < df.length) :
    (wochen (df.take (i + 1))).filter (fun e => e.1 ≤ datumAt df i) =
    (wochen df).filter (fun e => e.1 ≤ datumAt df i) := by
  set D := datumAt df i with hD
  have hsplit : df.take (i + 1) ++ df.drop (i + 1) = df := List.take_append_drop _ _
  have hdat2 : (df.take (i + 1) ++ df.drop (i + 1)).Pairwise
      (fun a b => a.datum < b.datum) := by rw [hsplit]; exact hdat
  have hmem : df.getD i default ∈ df.take (i + 1) := by
    have h2 : i < (df.take (i + 1)).length := by rw [length_take_eins df h]; omega
    have h1 : (df.take (i + 1)).getD i default = df.getD i default :=
      getD_take_eq df default (Nat.lt_succ_self i)
    rw [← h1, List.getD_eq_getElem (df.take (i + 1)) default h2]
    exact List.getElem_mem h2
  have hdrop : ∀ b ∈ df.drop (i + 1), D < wochenende b.datum := by
    intro b hb
    have h1 : (df.getD i default).datum < b.datum :=
      (List.pairwise_append.mp hdat2).2.2 _ hmem b hb
    calc D < b.datum := h1
    _ ≤ wochenende b.datum := le_wochenende _
  cases hT : df.take (i + 1) with
  | nil =>
    have h2 : i < (df.take (i + 1)).length := by rw [length_take_eins df h]; omega
    rw [hT] at h2
    simp at h2
  | cons a A1 =>
    have hw : wochen df = wochen_hilf (wochenende a.datum) a.close (A1 ++ df.drop (i + 1)) := by
      conv_lhs => rw [← hsplit, hT]
      rfl
    rw [hw]
    exact (wochen_hilf_filter_append D (df.drop (i + 1)) hdrop A1 _ _).symm

lemma wochen_hilf_label_ge :
    ∀ (l : List Bar) (lbl : ℕ) (v : ℚ),
      l.Pairwise (fun a b => a.datum ≤ b.datum) →
      (∀ b ∈ l, lbl ≤ wochenende b.datum) →
      ∀ e ∈ wochen_hilf lbl v l, lbl ≤ e.1
  | [], lbl, v, _, _, e, he => by
    simp [wochen_hilf] at he
    subst he
    exact le_rfl
  | b :: t, lbl, v, hp, hall, e, he => by
    rw [List.pairwise_cons] at hp
    unfold wochen_hilf at he
    by_cases hb : wochenende b.datum = lbl
    · rw [if_pos hb] at he
      exact wochen_hilf_label_ge t lbl b.close hp.2
        (fun b' h' => hall b' (List.mem_cons_of_mem _ h')) e he
    · rw [if_neg hb] at he
      rcases List.mem_cons.mp he with rfl | he'
      · exact le_rfl
      · have h1 : lbl ≤ wochenende b.datum := hall b (List.mem_cons_self _ _)
        have h2 := wochen_hilf_label_ge t (wochenende b.datum) b.close hp.2
          (fun b' h' => wochenende_mono (hp.1 b' h')) e he'
        omega

lemma wochen_hilf_pairwise :
    ∀ (l : List Bar) (lbl : ℕ) (v : ℚ),
      l.Pairwise (fun a b => a.datum ≤ b.datum) →
      (∀ b ∈ l, lbl ≤ wochenende b.datum) →
      (wochen_hilf lbl v l).Pairwise (fun e f => e.1 < f.1)
  | [], lbl, v, _, _ => by simp [wochen_hilf]
  | b :: t, lbl, v, hp, hall => by
    rw [List.pairwise_cons] at hp
    unfold wochen_hilf
    by_cases hb : wochenende b.datum = lbl
    · rw [if_pos hb]
      exact wochen_hilf_pairwise t lbl b.close hp.2
        (fun b' h' => hb ▸ wochenende_mono (hp.1 b' h'))
    · rw [if_neg hb]
      refine List.Pairwise.cons ?_ ?_
      · intro e he
        have h1 : lbl ≤ wochenende b.datum := hall b (List.mem_cons_self _ _)
        have h2 := wochen_hilf_label_ge t (wochenende b.datum) b.close hp.2
          (fun b' h' => wochenende_mono (hp.1 b' h')) e he
        have h3 : lbl ≠ wochenende b.datum := fun hx => hb hx.symm
        show lbl < e.1
        omega
      · exact wochen_hilf_pairwise t (wochenende b.datum) b.close hp.2
          (fun b' h' => wochenende_mono (hp.1 b' h'))

/-- Bucket labels of the weekly series are strictly increasing for a
date-sorted frame. -/
lemma wochen_pairwise (df : List Bar)
    (hdat : df.Pairwise (fun a b => a.datum < b.datum)) :
    (wochen df).Pairwise (fun e f => e.1 < f.1) := by
  cases df with
  | nil => simp [wochen]
  | cons b t =>
    rw [List.pairwise_cons] at hdat
    exact wochen_hilf_pairwise t _ b.close (hdat.2.imp le_of_lt)
      (fun b' h' => wochenende_mono (le_of_lt (hdat.1 b' h')))

lemma wochen_hilf_pos : ∀ (l : List Bar) (lbl : ℕ) (v : ℚ),
    0 < (wochen_hilf lbl v l).length
  | [], _, _ => by simp [wochen_hilf]
  | b :: t, lbl, v => by
    unfold wochen_hilf
    by_cases hb : wochenende b.datum = lbl
    · rw [if_pos hb]; exact wochen_hilf_pos t lbl b.close
    · rw [if_neg hb]; simp

lemma wochen_hilf_length_append (B : List Bar) :
    ∀ (A : List Bar) (lbl : ℕ) (v : ℚ),
      (wochen_hilf lbl v A).length ≤ (wochen_hilf lbl v (A ++ B)).length
  | [], lbl, v => by
    rw [List.nil_append]
    cases B with
    | nil => exact le_rfl
    | cons b rest =>
      unfold wochen_hilf
      by_cases hb : wochenende b.datum = lbl
      · rw [if_pos hb]; simpa using wochen_hilf_pos rest lbl b.close
      · rw [if_neg hb]; simp
  | a :: t, lbl, v => by
    rw [List.cons_append]
    unfold wochen_hilf
    by_cases hb : wochenende a.datum = lbl
    · rw [if_pos hb, if_pos hb]
      exact wochen_hilf_length_append B t lbl a.close
    · rw [if_neg hb, if_neg hb]
      simpa using wochen_hilf_length_append B t (wochenende a.datum) a.close

/-- The weekly series of a prefix has at most as many buckets as that of the
whole frame. -/
lemma wochen_take_length_le (df : List Bar) (k : ℕ) :
    (wochen (df.take k)).length ≤ (wochen df).length := by
  cases hT : df.take k with
  | nil => simp [wochen]
  | cons a A1 =>
    have hw : wochen df = wochen_hilf (wochenende a.datum) a.close (A1 ++ df.drop k) := by
      conv_lhs => rw [← List.take_append_drop k df, hT]
      rfl
    rw [hw]
    exact wochen_hilf_length_append (df.drop k) A1 _ _

/-- Over a list with strictly increasing labels, filtering by
`label ≤ D` keeps a prefix. -/
lemma filter_eq_take_of_pairwise {γ : Type _} (D : ℕ) :
    ∀ (l : List (ℕ × γ)), l.Pairwise (fun e f => e.1 < f.1) →
      l.filter (fun e => e.1 ≤ D) = l.take (l.filter (fun e => e.1 ≤ D)).length
  | [], _ => rfl
  | e :: t, hp => by
    rw [List.pairwise_cons] at hp
    by_cases he : e.1 ≤ D
    · rw [List.filter_cons, if_pos (by simpa using he), List.length_cons,
        List.take_succ_cons]
      exact congrArg _ (filter_eq_take_of_pairwise D t hp.2)
    · rw [List.filter_cons, if_neg (by simpa using he)]
      have ht : t.filter (fun e => e.1 ≤ D) = [] :=
        List.filter_eq_nil_iff.mpr (fun a ha => by
          have := hp.1 a ha; simp; omega)
      rw [ht]
      rfl

lemma filter_label_length_countP {γ : Type _} (D : ℕ) (l : List (ℕ × γ)) :
    (l.filter (fun e => e.1 ≤ D)).length = (l.map Prod.fst).countP (fun x => x ≤ D) := by
  rw [← List.countP_eq_length_filter, List.countP_map]
  rfl

lemma filter_label_length {γ δ : Type _} (D : ℕ) (l₁ : List (ℕ × γ)) (l₂ : List (ℕ × δ))
    (hfst : l₁.map Prod.fst = l₂.map Prod.fst) :
    (l₁.filter (fun e => e.1 ≤ D)).length = (l₂.filter (fun e => e.1 ≤ D)).length := by
  rw [filter_label_length_countP, filter_label_length_countP, hfst]

lemma pairwise_fst_of_map_eq {γ δ : Type _} {l₁ : List (ℕ × γ)} {l₂ : List (ℕ × δ)}
    (hfst : l₁.map Prod.fst = l₂.map Prod.fst)
    (hp : l₁.Pairwise (fun e f => e.1 < f.1)) :
    l₂.Pairwise (fun e f => e.1 < f.1) := by
  have h1 : (l₁.map Prod.fst).Pairwise (· < ·) := List.pairwise_map.mpr hp
  rw [hfst] at h1
  exact List.pairwise_map.mp h1

lemma wochen_rsi_map_fst (wk : List (ℕ × ℚ)) :
    (wochen_rsi wk).map Prod.fst = wk.map Prod.fst := by
  apply List.ext_getElem
  · simp [wochen_rsi]
  · intro j h1 h2
    have hj : j < wk.length := by simpa [wochen_rsi] using h1
    simp [wochen_rsi, List.getD_eq_getElem?_getD, List.getElem?_eq_getElem hj]

lemma getLast?_range_map {β : Type _} (k : ℕ) (f : ℕ → β) (hk : 0 < k) :
    ((List.range k).map f).getLast? = some (f (k - 1)) := by
  rw [List.getLast?_eq_getElem?]
  have hlen : ((List.range k).map f).length = k := by simp
  rw [hlen, List.getElem?_map, List.getElem?_range (by omega)]
  rfl

lemma wochen_rsi_take (wk : List (ℕ × ℚ)) {k : ℕ} (hk : k ≤ wk.length) :
    (wochen_rsi wk).take k =
      (List.range k).map (fun j => ((wk.getD j (0, 0)).1, rsi_at (wk.map Prod.snd) j)) := by
  rw [wochen_rsi, ← List.map_take, List.take_range, min_eq_left hk]

lemma rsi_at_congr_take {xs ys : List ℚ} {j : ℕ} (hxy : xs.take (j + 1) = ys.take (j + 1))
    (hx : j < xs.length) (hy : j < ys.length) : rsi_at xs j = rsi_at ys j := by
  unfold rsi_at
  by_cases h14 : 14 ≤ j
  · have hcx : j < xs.length ∧ 14 ≤ j := ⟨hx, h14⟩
    have hcy : j < ys.length ∧ 14 ≤ j := ⟨hy, h14⟩
    rw [if_pos hcx, if_pos hcy, hxy]
  · rw [if_neg (by tauto), if_neg (by tauto)]

/-- The weekly-RSI factor only sees buckets labelled at or before `D`, so it
coincides on two weekly series (here: of the prefix and of the full frame)
that agree on those buckets — including the corner where only the longer
series reaches the 15-bucket minimum, in which case the value read off is
still unavailable (`< 14` RSI samples) and the factor is skipped either
way. -/
lemma punkt_wrsi_aus_wochen (A W : List (ℕ × ℚ)) (D : ℕ)
    (hpA : A.Pairwise (fun e f => e.1 < f.1)) (hpW : W.Pairwise (fun e f => e.1 < f.1))
    (hAW : A.filter (fun e => e.1 ≤ D) = W.filter (fun e => e.1 ≤ D))
    (hlen : A.length ≤ W.length) :
    punkt_wrsi ((if 15 ≤ A.length then some (wochen_rsi A) else none).map
        (fun wr => wr.filter (fun e => e.1 ≤ D)))
    = punkt_wrsi ((if 15 ≤ W.length then some (wochen_rsi W) else none).map
        (fun wr => wr.filter (fun e => e.1 ≤ D))) := by
  have hkW : (W.filter (fun e => e.1 ≤ D)).length = (A.filter (fun e => e.1 ≤ D)).length := by
    rw [hAW]
  set k := (A.filter (fun e => e.1 ≤ D)).length with hk
  have hkA_le : k ≤ A.length := List.length_filter_le _ _
  have hkW_le : k ≤ W.length := by rw [← hkW]; exact List.length_filter_le _ _
  have htakeAW : A.take k = W.take k := by
    have e1 := filter_eq_take_of_pairwise D A hpA
    have e2 := filter_eq_take_of_pairwise D W hpW
    rw [hkW] at e2
    rw [← e1, ← e2]
    exact hAW
  have htake_j : ∀ j < k, A.take (j + 1) = W.take (j + 1) := by
    intro j hj
    calc A.take (j + 1) = (A.take k).take (j + 1) := by
          rw [List.take_take, min_eq_left (by omega)]
    _ = (W.take k).take (j + 1) := by rw [htakeAW]
    _ = W.take (j + 1) := by rw [List.take_take, min_eq_left (by omega)]
  have hval : ∀ j < k, rsi_at (A.map Prod.snd) j = rsi_at (W.map Prod.snd) j := by
    intro j hj
    refine rsi_at_congr_take ?_ (by simp; omega) (by simp; omega)
    rw [← List.map_take, ← List.map_take, htake_j j hj]
  have hfA := wochen_rsi_map_fst A
  have hfW := wochen_rsi_map_fst W
  have hkA' : ((wochen_rsi A).filter (fun e => e.1 ≤ D)).length = k := by
    rw [filter_label_length D (wochen_rsi A) A hfA]
  have hkW' : ((wochen_rsi W).filter (fun e => e.1 ≤ D)).length = k := by
    rw [filter_label_length D (wochen_rsi W) W hfW, hkW]
  have hgetD : ∀ j < k, A.getD j (0, 0) = W.getD j (0, 0) := by
    intro j hj
    rw [← getD_take_eq A (0, 0) (show j < k by omega), htakeAW,
      getD_take_eq W (0, 0) (show j < k by omega)]
  by_cases hA15 : 15 ≤ A.length <;> by_cases hW15 : 15 ≤ W.length
  · -- both weekly series long enough: the filtered RSI series coincide
    rw [if_pos hA15, if_pos hW15]
    simp only [Option.map_some']
    have hfinal : (wochen_rsi A).filter (fun e => e.1 ≤ D) =
        (wochen_rsi W).filter (fun e => e.1 ≤ D) := by
      rw [filter_eq_take_of_pairwise D _ (pairwise_fst_of_map_eq hfA.symm hpA), hkA',
        filter_eq_take_of_pairwise D _ (pairwise_fst_of_map_eq hfW.symm hpW), hkW',
        wochen_rsi_take A hkA_le, wochen_rsi_take W hkW_le]
      refine List.map_congr_left fun j hj => ?_
      rw [List.mem_range] at hj
      rw [hgetD j hj, hval j hj]
    rw [hfinal]
  · omega
  · -- only the full series reaches 15 buckets: its value at the last kept
    -- bucket is an RSI position `< 14`, hence unavailable — factor skipped
    rw [if_neg hA15, if_pos hW15]
    simp only [Option.map_some', Option.map_none']
    rw [show punkt_wrsi none = 0 from rfl]
    rw [filter_eq_take_of_pairwise D _ (pairwise_fst_of_map_eq hfW.symm hpW), hkW',
      wochen_rsi_take W hkW_le]
    rcases Nat.eq_zero_or_pos k with hk0 | hkpos
    · rw [hk0]
      rfl
    · simp only [punkt_wrsi]
      rw [getLast?_range_map k _ hkpos]
      have : rsi_at (W.map Prod.snd) (k - 1) = none := by
        unfold rsi_at
        rw [if_neg (by push_neg; intro; omega)]
      rw [this]
  · rw [if_neg hA15, if_neg hW15]

/-- All thirteen base rules of `score_bei_index` are prefix-stable: at
index `i` they read only bars `0 … i`, so the precomputed set of the
truncated frame yields the same base score. -/
lemma score_basis_stabil (df : List Bar) (spy : Option (List (ℕ × ℚ))) {i : ℕ}
    (hdat : df.Pairwise (fun a b => a.datum < b.datum)) (h : i < df.length) :
    score_basis i (df.take (i + 1)) (precompute_serien (df.take (i + 1)) spy)
    = score_basis i df (precompute_serien df spy) := by
  have hi1 : i < i + 1 := Nat.lt_succ_self i
  have hcl : i < (closes df).length := by simpa [closes] using h
  have hpA : (wochen (df.take (i + 1))).Pairwise (fun e f => e.1 < f.1) :=
    wochen_pairwise _ (hdat.sublist (List.take_sublist _ _))
  have hpW : (wochen df).Pairwise (fun e f => e.1 < f.1) := wochen_pairwise _ hdat
  have hAW := wochen_filter_stabil df hdat h
  have hlen := wochen_take_length_le df (i + 1)
  unfold score_basis precompute_serien
  dsimp only
  rw [closes_take, volumes_take, closeAt_take df hi1, datumAt_take df hi1,
    sma_at_take 200 (closes df) hcl, sma_at_take 50 (closes df) hcl,
    sma_at_take 20 (closes df) hcl, sma_at_take 10 (closes df) hcl,
    rsi_at_take (closes df) hcl, macd_diff_at_take (closes df) hcl,
    rollvar_at_take 20 (closes df) hcl,
    sma_at_take 20 (volumes df) (by simpa [volumes] using h),
    rollmax_at_take 252 50 (closes df) hcl, rollmin_at_take 252 50 (closes df) hcl,
    pct20_at_take (closes df) hcl, getD_take_eq (volumes df) 0 hi1,
    closeAt_take df (show i - 1 < i + 1 by omega),
    hAW, punkt_wrsi_aus_wochen (wochen (df.take (i + 1))) (wochen df) (datumAt df i)
      hpA hpW hAW hlen]

/-- C1 (amended): anti-lookahead of the base score. For a date-sorted frame
and a positive close at a valid index `i`, the score computed on the
truncation `df[0..i]` with its own rebuilt indicator set equals the score
computed at `i` on the full frame with the full precomputed set, plus the
ICT pattern bonus of the truncation — the bonus the full-frame evaluation
adds only at the final index. At `i = len-1` the two sides coincide
exactly; at interior indices they differ by exactly that pattern bonus, and
no base factor reads any bar beyond `i`. -/
theorem score_bei_index_kein_blick_voraus (df : List Bar) (spy : Option (List (ℕ × ℚ)))
    {i : ℕ} (hdat : df.Pairwise (fun a b => a.datum < b.datum)) (h : i < df.length)
    (hkurs : 0 < closeAt df i) :
    score_bei_index i (df.take (i + 1)) (precompute_serien (df.take (i + 1)) spy)
    = score_bei_index i df (precompute_serien df spy)
      + (if i = df.length - 1 then 0 else (score_ict (df.take (i + 1))).1) := by
  have hi1 : i < i + 1 := Nat.lt_succ_self i
  have hlen : (df.take (i + 1)).length = i + 1 := length_take_eins df h
  by_cases hlast : i = df.length - 1
  · have ht : df.take (i + 1) = df := by
      have h2 : i + 1 = df.length := by omega
      rw [h2, List.take_length]
    rw [ht, if_pos hlast, add_zero]
  · have hL : score_bei_index i (df.take (i + 1)) (precompute_serien (df.take (i + 1)) spy)
        = score_basis i (df.take (i + 1)) (precompute_serien (df.take (i + 1)) spy)
          + (score_ict (df.take (i + 1))).1 := by
      unfold score_bei_index
      rw [if_neg (by rw [hlen]; omega),
        if_neg (by rw [closeAt_take df hi1]; exact not_le.mpr hkurs),
        if_pos (by rw [hlen]; omega)]
    have hR : score_bei_index i df (precompute_serien df spy)
        = score_basis i df (precompute_serien df spy) := by
      unfold score_bei_index
      rw [if_neg (by omega), if_neg (not_le.mpr hkurs), if_neg hlast]
    rw [hL, hR, if_neg hlast, score_basis_stabil df spy hdat h]

/-! ## Breakdown consistency: every rule records exactly the delta it adds -/

lemma detail_summe_nil : detail_summe [] = 0 := rfl

lemma detail_summe_append (a b : List Detail) :
    detail_summe (a ++ b) = detail_summe a + detail_summe b := by
  simp [detail_summe]

lemma faktor_sma200_summe (kurs : ℚ) (v : Option ℚ) :
    (faktor_sma200 kurs v).1 = detail_summe (faktor_sma200 kurs v).2 := by
  rcases v with _ | x
  · rfl
  · simp only [faktor_sma200]
    split_ifs <;> simp [detail_summe]

lemma faktor_cross_summe (a b : Option ℚ) :
    (faktor_cross a b).1 = detail_summe (faktor_cross a b).2 := by
  rcases a with _ | x <;> rcases b with _ | y
  · rfl
  · rfl
  · rfl
  · simp only [faktor_cross]
    split_ifs <;> simp [detail_summe]

lemma faktor_rsi_summe (r : Option ℚ) :
    (faktor_rsi r).1 = detail_summe (faktor_rsi r).2 := by
  rcases r with _ | x
  · rfl
  · simp only [faktor_rsi]
    split_ifs <;> simp [detail_summe]

lemma faktor_macd_summe (v : Option ℚ) :
    (faktor_macd v).1 = detail_summe (faktor_macd v).2 := by
  rcases v with _ | x
  · rfl
  · simp only [faktor_macd]
    split_ifs <;> simp [detail_summe]

lemma faktor_sma20_summe (kurs : ℚ) (v : Option ℚ) :
    (faktor_sma20 kurs v).1 = detail_summe (faktor_sma20 kurs v).2 := by
  rcases v with _ | x
  · rfl
  · simp only [faktor_sma20]
    split_ifs <;> simp [detail_summe]

lemma faktor_sma10_summe (kurs : ℚ) (v : Option ℚ) :
    (faktor_sma10 kurs v).1 = detail_summe (faktor_sma10 kurs v).2 := by
  rcases v with _ | x
  · rfl
  · simp only [faktor_sma10]
    split_ifs <;> simp [detail_summe]

lemma faktor_bb_summe (kurs : ℚ) (m v : Option ℚ) :
    (faktor_bb kurs m v).1 = detail_summe (faktor_bb kurs m v).2 := by
  rcases m with _ | x <;> rcases v with _ | y
  · rfl
  · rfl
  · rfl
  · simp only [faktor_bb]
    split_ifs <;> simp [detail_summe]

lemma faktor_vol_summe (vol : ℚ) (m : Option ℚ) :
    (faktor_vol vol m).1 = detail_summe (faktor_vol vol m).2 := by
  rcases m with _ | x
  · rfl
  · simp only [faktor_vol]
    split_ifs <;> simp [detail_summe]

lemma faktor_weekly_summe (wk : List (ℕ × ℚ)) :
    (faktor_weekly wk).1 = detail_summe (faktor_weekly wk).2 := by
  rcases hw : wk.reverse with _ | ⟨a, _ | ⟨b, t⟩⟩ <;> simp only [faktor_weekly, hw]
  · rfl
  · rfl
  · split_ifs <;> simp [detail_summe]

lemma faktor_wrsi_summe (wk : List (ℕ × ℚ)) :
    (faktor_wrsi wk).1 = detail_summe (faktor_wrsi wk).2 := by
  simp only [faktor_wrsi]
  split_ifs with h15
  · rcases hr : rsi_at (wk.map Prod.snd) (wk.length - 1) with _ | r <;> simp only [hr]
    · rfl
    · split_ifs <;> simp [detail_summe]
  · rfl

lemma faktor_rs_summe (spy : List (ℕ × ℚ)) (c : List ℚ) :
    (faktor_rs spy c).1 = detail_summe (faktor_rs spy c).2 := by
  simp only [faktor_rs]
  split_ifs with hg
  · rcases pct20_at (spy.map Prod.snd) (spy.length - 1) with _ | a <;>
      rcases pct20_at c (c.length - 1) with _ | b
    · rfl
    · rfl
    · rfl
    · simp only []
      split_ifs <;> simp [detail_summe]
  · rfl

lemma faktor_52w_summe (kurs : ℚ) (h l : Option ℚ) :
    (faktor_52w kurs h l).1 = detail_summe (faktor_52w kurs h l).2 := by
  rcases h with _ | x <;> rcases l with _ | y
  · rfl
  · rfl
  · rfl
  · simp only [faktor_52w]
    split_ifs <;> simp [detail_summe]

lemma faktor_gap_summe (kurs prev : ℚ) :
    (faktor_gap kurs prev).1 = detail_summe (faktor_gap kurs prev).2 := by
  simp only [faktor_gap]
  split_ifs <;> simp [detail_summe]

lemma ict_fvg_bull_summe (fvgs : List Zone) (kurs : ℚ) :
    (ict_fvg_bull fvgs kurs).1 = detail_summe (ict_fvg_bull fvgs kurs).2 := by
  simp only [ict_fvg_bull]
  split_ifs <;> simp [detail_summe]

lemma ict_fvg_bear_summe (fvgs : List Zone) (kurs : ℚ) :
    (ict_fvg_bear fvgs kurs).1 = detail_summe (ict_fvg_bear fvgs kurs).2 := by
  simp only [ict_fvg_bear]
  split_ifs <;> simp [detail_summe]

lemma ict_ob_bull_summe (obs : List Zone) (kurs : ℚ) :
    (ict_ob_bull obs kurs).1 = detail_summe (ict_ob_bull obs kurs).2 := by
  simp only [ict_ob_bull]
  split_ifs <;> simp [detail_summe]

lemma ict_ob_bear_summe (obs : List Zone) (kurs : ℚ) :
    (ict_ob_bear obs kurs).1 = detail_summe (ict_ob_bear obs kurs).2 := by
  simp only [ict_ob_bear]
  split_ifs <;> simp [detail_summe]

lemma ict_sweep_bull_summe (sweeps : List Sweep) (n : ℕ) :
    (ict_sweep_bull sweeps n).1 = detail_summe (ict_sweep_bull sweeps n).2 := by
  simp only [ict_sweep_bull]
  split_ifs <;> simp [detail_summe]

lemma ict_sweep_bear_summe (sweeps : List Sweep) (n : ℕ) :
    (ict_sweep_bear sweeps n).1 = detail_summe (ict_sweep_bear sweeps n).2 := by
  simp only [ict_sweep_bear]
  split_ifs <;> simp [detail_summe]

lemma ict_bos_summe (bos : Option Richtung) :
    (ict_bos bos).1 = detail_summe (ict_bos bos).2 := by
  rcases bos with _ | r
  · rfl
  · cases r <;> simp [ict_bos, detail_summe]

lemma score_ict_summe (df : List Bar) (lookback : ℕ) :
    (score_ict df lookback).1 = detail_summe (score_ict df lookback).2 := by
  unfold score_ict
  split
  · rfl
  · simp only [detail_summe_append, ict_fvg_bull_summe, ict_fvg_bear_summe,
      ict_ob_bull_summe, ict_ob_bear_summe, ict_sweep_bull_summe,
      ict_sweep_bear_summe, ict_bos_summe]

lemma berechne_score_kern_summe (df : List Bar) (spy : List (ℕ × ℚ)) :
    (berechne_score_kern df spy).1 = detail_summe (berechne_score_kern df spy).2 := by
  unfold berechne_score_kern
  split
  · rfl
  · simp only [detail_summe_append, faktor_sma200_summe, faktor_cross_summe,
      faktor_rsi_summe, faktor_macd_summe, faktor_sma20_summe, faktor_sma10_summe,
      faktor_bb_summe, faktor_vol_summe, faktor_weekly_summe, faktor_wrsi_summe,
      faktor_rs_summe, faktor_52w_summe, score_ict_summe, apply_ite Prod.fst,
      apply_ite Prod.snd, faktor_gap_summe, apply_ite detail_summe, detail_summe_nil]


/-! ## The inner scorer records no trend entry -/

lemma faktor_sma200_kein_trend (kurs : ℚ) (v : Option ℚ) :
    ∀ e ∈ (faktor_sma200 kurs v).2, ∀ d : ℤ, e ≠ Detail.trendNotiz d := by
  rcases v with _ | x
  · simp [faktor_sma200]
  · simp only [faktor_sma200]
    split_ifs <;> simp

lemma faktor_cross_kein_trend (a b : Option ℚ) :
    ∀ e ∈ (faktor_cross a b).2, ∀ d : ℤ, e ≠ Detail.trendNotiz d := by
  rcases a with _ | x <;> rcases b with _ | y <;> simp only [faktor_cross] <;>
    try simp
  split_ifs <;> simp

lemma faktor_rsi_kein_trend (r : Option ℚ) :
    ∀ e ∈ (faktor_rsi r).2, ∀ d : ℤ, e ≠ Detail.trendNotiz d := by
  rcases r with _ | x
  · simp [faktor_rsi]
  · simp only [faktor_rsi]
    split_ifs <;> simp

lemma faktor_macd_kein_trend (v : Option ℚ) :
    ∀ e ∈ (faktor_macd v).2, ∀ d : ℤ, e ≠ Detail.trendNotiz d := by
  rcases v with _ | x
  · simp [faktor_macd]
  · simp only [faktor_macd]
    split_ifs <;> simp

lemma faktor_sma20_kein_trend (kurs : ℚ) (v : Option ℚ) :
    ∀ e ∈ (faktor_sma20 kurs v).2, ∀ d : ℤ, e ≠ Detail.trendNotiz d := by
  rcases v with _ | x
  · simp [faktor_sma20]
  · simp only [faktor_sma20]
    split_ifs <;> simp

lemma faktor_sma10_kein_trend (kurs : ℚ) (v : Option ℚ) :
    ∀ e ∈ (faktor_sma10 kurs v).2, ∀ d : ℤ, e ≠ Detail.trendNotiz d := by
  rcases v with _ | x
  · simp [faktor_sma10]
  · simp only [faktor_sma10]
    split_ifs <;> simp

lemma faktor_bb_kein_trend (kurs : ℚ) (m v : Option ℚ) :
    ∀ e ∈ (faktor_bb kurs m v).2, ∀ d : ℤ, e ≠ Detail.trendNotiz d := by
  rcases m with _ | x <;> rcases v with _ | y <;> simp only [faktor_bb] <;> try simp
  split_ifs <;> simp

lemma faktor_vol_kein_trend (vol : ℚ) (m : Option ℚ) :
    ∀ e ∈ (faktor_vol vol m).2, ∀ d : ℤ, e ≠ Detail.trendNotiz d := by
  rcases m with _ | x
  · simp [faktor_vol]
  · simp only [faktor_vol]
    split_ifs <;> simp

lemma faktor_weekly_kein_trend (wk : List (ℕ × ℚ)) :
    ∀ e ∈ (faktor_weekly wk).2, ∀ d : ℤ, e ≠ Detail.trendNotiz d := by
  rcases hw : wk.reverse with _ | ⟨a, _ | ⟨b, t⟩⟩ <;> simp only [faktor_weekly, hw] <;>
    try simp
  split_ifs <;> simp

lemma faktor_wrsi_kein_trend (wk : List (ℕ × ℚ)) :
    ∀ e ∈ (faktor_wrsi wk).2, ∀ d : ℤ, e ≠ Detail.trendNotiz d := by
  simp only [faktor_wrsi]
  split_ifs with h15
  · rcases hr : rsi_at (wk.map Prod.snd) (wk.length - 1) with _ | r <;> simp only [hr]
    · simp
    · split_ifs <;> simp
  · simp

lemma faktor_rs_kein_trend (spy : List (ℕ × ℚ)) (c : List ℚ) :
    ∀ e ∈ (faktor_rs spy c).2, ∀ d : ℤ, e ≠ Detail.trendNotiz d := by
  simp only [faktor_rs]
  split_ifs with hg
  · rcases pct20_at (spy.map Prod.snd) (spy.length - 1) with _ | a <;>
      rcases pct20_at c (c.length - 1) with _ | b <;> try simp
    split_ifs <;> simp
  · simp

lemma faktor_52w_kein_trend (kurs : ℚ) (h l : Option ℚ) :
    ∀ e ∈ (faktor_52w kurs h l).2, ∀ d : ℤ, e ≠ Detail.trendNotiz d := by
  rcases h with _ | x <;> rcases l with _ | y <;> simp only [faktor_52w] <;> try simp
  split_ifs <;> simp

lemma faktor_gap_kein_trend (kurs prev : ℚ) :
    ∀ e ∈ (faktor_gap kurs prev).2, ∀ d : ℤ, e ≠ Detail.trendNotiz d := by
  simp only [faktor_gap]
  split_ifs <;> simp

lemma score_ict_kein_trend (df : List Bar) (lookback : ℕ) :
    ∀ e ∈ (score_ict df lookback).2, ∀ d : ℤ, e ≠ Detail.trendNotiz d := by
  unfold score_ict
  split
  · simp
  · intro e he
    simp only [List.mem_append] at he
    rcases he with ((((((he | he) | he) | he) | he) | he) | he) <;>
      revert he <;>
      first
        | exact fun he => by
            revert he
            simp only [ict_fvg_bull, ict_fvg_bear, ict_ob_bull, ict_ob_bear,
              ict_sweep_bull, ict_sweep_bear]
            split_ifs <;> simp <;> (rintro rfl; simp)
        | exact fun he => by
            revert he
            rcases detect_bos df lookback with _ | r
            · simp [ict_bos]
            · cases r <;> simp [ict_bos] <;> (rintro rfl; simp)

lemma berechne_score_kern_ohne_trend (df : List Bar) (spy : List (ℕ × ℚ)) :
    ∀ e ∈ (berechne_score_kern df spy).2, ∀ d : ℤ, e ≠ Detail.trendNotiz d := by
  unfold berechne_score_kern
  split
  · simp
  · refine List.forall_mem_append.mpr ⟨?_, score_ict_kein_trend _ _⟩
    refine List.forall_mem_append.mpr ⟨?_, ?_⟩
    · refine List.forall_mem_append.mpr ⟨?_, faktor_52w_kein_trend _ _ _⟩
      refine List.forall_mem_append.mpr ⟨?_, faktor_rs_kein_trend _ _⟩
      refine List.forall_mem_append.mpr ⟨?_, faktor_wrsi_kein_trend _⟩
      refine List.forall_mem_append.mpr ⟨?_, faktor_weekly_kein_trend _⟩
      refine List.forall_mem_append.mpr ⟨?_, faktor_vol_kein_trend _ _⟩
      refine List.forall_mem_append.mpr ⟨?_, faktor_bb_kein_trend _ _ _⟩
      refine List.forall_mem_append.mpr ⟨?_, faktor_sma10_kein_trend _ _⟩
      refine List.forall_mem_append.mpr ⟨?_, faktor_sma20_kein_trend _ _⟩
      refine List.forall_mem_append.mpr ⟨?_, faktor_macd_kein_trend _⟩
      refine List.forall_mem_append.mpr ⟨?_, faktor_rsi_kein_trend _⟩
      exact List.forall_mem_append.mpr
        ⟨faktor_sma200_kein_trend _ _, faktor_cross_kein_trend _ _⟩
    · split_ifs
      · exact faktor_gap_kein_trend _ _
      · simp

lemma berechne_score_false (df : List Bar) (spy : List (ℕ × ℚ)) :
    berechne_score df spy false = berechne_score_kern df spy := by
  unfold berechne_score
  rw [if_neg (by simp)]

/-- C2: the total score of `berechne_score` equals the arithmetic sum of
the signed deltas recorded in its detail breakdown — base rules and ICT
pattern entries alike — while the `rsi_raw` value and the `trend`
entry contribute nothing; this holds with and without the trend pass. -/
theorem score_summe_der_details (df : List Bar) (spy : List (ℕ × ℚ)) (flag : Bool)
    (_h : 50 ≤ df.length) :
    (berechne_score df spy flag).1 = detail_summe (berechne_score df spy flag).2 := by
  unfold berechne_score
  split
  · rw [detail_summe_append, berechne_score_kern_summe df spy]
    simp [detail_summe]
  · exact berechne_score_kern_summe df spy

/-- C7: with at least 55 bars, the trend-enabled scorer returns exactly the
inner (no-trend) scorer's breakdown — total unchanged — extended by one
`trend` entry whose value is the inner score of the full frame minus the
inner score of the frame without its last 5 bars (both including the
pattern bonus); the inner scorer itself never produces a trend entry
(recursion depth 1); under 55 bars the annotation is simply absent. -/
theorem trend_notiz_korrekt (df : List Bar) (spy : List (ℕ × ℚ)) :
    (55 ≤ df.length →
      berechne_score df spy true
        = ((berechne_score df spy false).1,
            (berechne_score df spy false).2 ++
              [Detail.trendNotiz ((berechne_score df spy false).1
                - (berechne_score (df.take (df.length - 5)) spy false).1)]))
    ∧ (df.length < 55 → berechne_score df spy true = berechne_score df spy false)
    ∧ (∀ e ∈ (berechne_score df spy false).2, ∀ d : ℤ, e ≠ Detail.trendNotiz d) := by
  refine ⟨fun h55 => ?_, fun h55 => ?_, ?_⟩
  · rw [berechne_score_false, berechne_score_false]
    unfold berechne_score
    rw [if_pos ⟨rfl, h55⟩]
  · rw [berechne_score_false]
    unfold berechne_score
    rw [if_neg (by simp; omega)]
  · rw [berechne_score_false]
    exact berechne_score_kern_ohne_trend df spy

/-! ## Backtest loop: checkpoints, non-overlap, degenerate classification -/

lemma check_tage_mitglied (n h i : ℕ) :
    i ∈ check_tage n h ↔ 60 ≤ i ∧ i < n - h ∧ (i - 60) % 5 = 0 := by
  unfold check_tage
  rw [List.mem_range']
  constructor
  · rintro ⟨k, hk, rfl⟩
    refine ⟨by omega, by omega, by omega⟩
  · rintro ⟨h1, h2, h3⟩
    exact ⟨(i - 60) / 5, by omega, by omega⟩

lemma scan_long_mitglied (toEur : ℚ → ℚ → ℚ) (df : List Bar) (kaufRaw atrEur : ℚ)
    (useTrail useSl : Bool) (endIdx : ℕ) :
    ∀ (js : List ℕ) (peak : ℚ) (stop : Option ℚ),
      (scan_long toEur df kaufRaw atrEur useTrail useSl endIdx js peak stop).1 = endIdx ∨
      (scan_long toEur df kaufRaw atrEur useTrail useSl endIdx js peak stop).1 ∈ js
  | [], _, _ => Or.inl rfl
  | j :: rest, peak, stop => by
    unfold scan_long
    dsimp only
    split <;> split
    all_goals
      first
        | exact Or.inr (List.mem_cons_self _ _)
        | exact Or.elim
            (scan_long_mitglied toEur df kaufRaw atrEur useTrail useSl endIdx rest _ _)
            Or.inl (fun h => Or.inr (List.mem_cons_of_mem _ h))

lemma scan_short_mitglied (toEur : ℚ → ℚ → ℚ) (df : List Bar) (kaufRaw atrEur : ℚ)
    (useTrail useSl : Bool) (endIdx : ℕ) :
    ∀ (js : List ℕ) (peak : ℚ) (stop : Option ℚ),
      (scan_short toEur df kaufRaw atrEur useTrail useSl endIdx js peak stop).1 = endIdx ∨
      (scan_short toEur df kaufRaw atrEur useTrail useSl endIdx js peak stop).1 ∈ js
  | [], _, _ => Or.inl rfl
  | j :: rest, peak, stop => by
    unfold scan_short
    dsimp only
    split <;> split
    all_goals
      first
        | exact Or.inr (List.mem_cons_self _ _)
        | exact Or.elim
            (scan_short_mitglied toEur df kaufRaw atrEur useTrail useSl endIdx rest _ _)
            Or.inl (fun h => Or.inr (List.mem_cons_of_mem _ h))

lemma scan_long_ab (toEur : ℚ → ℚ → ℚ) (df : List Bar) (kaufRaw atrEur : ℚ)
    (useTrail useSl : Bool) {i endIdx : ℕ} (hie : i ≤ endIdx) (peak : ℚ)
    (stop : Option ℚ) :
    i ≤ (scan_long toEur df kaufRaw atrEur useTrail useSl endIdx
          (List.range' (i + 1) (endIdx - i)) peak stop).1 := by
  rcases scan_long_mitglied toEur df kaufRaw atrEur useTrail useSl endIdx
      (List.range' (i + 1) (endIdx - i)) peak stop with h | h
  · omega
  · rw [List.mem_range'] at h
    obtain ⟨k, hk, hkk⟩ := h
    omega

lemma scan_short_ab (toEur : ℚ → ℚ → ℚ) (df : List Bar) (kaufRaw atrEur : ℚ)
    (useTrail useSl : Bool) {i endIdx : ℕ} (hie : i ≤ endIdx) (peak : ℚ)
    (stop : Option ℚ) :
    i ≤ (scan_short toEur df kaufRaw atrEur useTrail useSl endIdx
          (List.range' (i + 1) (endIdx - i)) peak stop).1 := by
  rcases scan_short_mitglied toEur df kaufRaw atrEur useTrail useSl endIdx
      (List.range' (i + 1) (endIdx - i)) peak stop with h | h
  · omega
  · rw [List.mem_range'] at h
    obtain ⟨k, hk, hkk⟩ := h
    omega

lemma invariante_neuer_trade (st : BtZustand) (i exitIdx : ℕ) (sig : Signal)
    (k v r g : ℚ) (grund : ExitGrund) (eq : ℚ) (kv : List ℚ)
    (hnext : st.nextIdx ≤ i) (hex : i ≤ exitIdx) (hinv : BtInvariante st) :
    BtInvariante ⟨exitIdx, st.trades ++ [⟨i, exitIdx, sig, k, v, r, g, grund⟩], eq, kv⟩ ∧
      st.nextIdx ≤ exitIdx := by
  obtain ⟨h1, h2⟩ := hinv
  refine ⟨⟨?_, ?_⟩, by omega⟩
  · intro t ht
    rcases List.mem_append.mp ht with ht | ht
    · have h3 := h1 t ht
      refine ⟨h3.1, ?_⟩
      show t.exitIdx ≤ exitIdx
      omega
    · rw [List.mem_singleton] at ht
      subst ht
      exact ⟨hex, le_rfl⟩
  · rw [List.pairwise_append]
    refine ⟨h2, by simp, ?_⟩
    intro a ha b hb
    rw [List.mem_singleton] at hb
    subst hb
    have h3 := h1 a ha
    show a.exitIdx ≤ i
    omega

/-- One backtest step preserves the invariant and never moves `next_idx`
backwards, provided the checkpoint lies inside the frame. -/
lemma backtest_schritt_invariante (p : BtParams) (df : List Bar) (atrS : ℕ → Option ℚ)
    (scoresAll : List ℤ) (st : BtZustand) (idx i : ℕ) (hi : i < df.length)
    (hinv : BtInvariante st) :
    BtInvariante (backtest_schritt p df atrS scoresAll st (idx, i)) ∧
      st.nextIdx ≤ (backtest_schritt p df atrS scoresAll st (idx, i)).nextIdx := by
  unfold backtest_schritt
  dsimp only
  split
  · exact ⟨hinv, le_rfl⟩
  · rename_i hskip
    have hnext : st.nextIdx ≤ i := by omega
    rcases hsig : backtest_signal (scoresAll.take (idx + 1)) (scoresAll.getD idx 0) with
      _ | _ | _ <;> simp only [hsig]
    case neutral => exact ⟨hinv, le_rfl⟩
    case long =>
      exact invariante_neuer_trade st i _ Signal.long _ _ _ _ _ _ _ hnext
        (scan_long_ab p.toEur df _ _ p.useTrailing p.useSl
          (le_inf (by omega) (by omega)) _ _) hinv
    case short =>
      exact invariante_neuer_trade st i _ Signal.short _ _ _ _ _ _ _ hnext
        (scan_short_ab p.toEur df _ _ p.useTrailing p.useSl
          (le_inf (by omega) (by omega)) _ _) hinv


lemma backtest_fold_invariante (p : BtParams) (df : List Bar) (atrS : ℕ → Option ℚ)
    (scoresAll : List ℤ) :
    ∀ (l : List (ℕ × ℕ)) (st : BtZustand), (∀ q ∈ l, q.2 < df.length) → BtInvariante st →
      BtInvariante (l.foldl (backtest_schritt p df atrS scoresAll) st)
  | [], st, _, hinv => hinv
  | q :: rest, st, hl, hinv => by
    rw [List.foldl_cons]
    exact backtest_fold_invariante p df atrS scoresAll rest _
      (fun q' h' => hl q' (List.mem_cons_of_mem _ h'))
      (backtest_schritt_invariante p df atrS scoresAll st q.1 q.2
        (hl q (List.mem_cons_self _ _)) hinv).1

/-- C3 (amended): in every backtest run the recorded trades are
chronologically ordered — each later trade enters no earlier than every
earlier trade exits (so the closed index ranges `[entry, exit]` of two
distinct trades can share at most the single boundary bar), and every
trade's entry index does not exceed its exit index; in particular at most
one trade is open at any simulated time. -/
theorem trades_ohne_ueberlappung (p : BtParams) (df : List Bar) (atrS : ℕ → Option ℚ)
    (scoresAll : List ℤ) :
    (backtest_lauf p df atrS scoresAll).trades.Pairwise (fun a b => a.exitIdx ≤ b.entryIdx)
    ∧ ∀ t ∈ (backtest_lauf p df atrS scoresAll).trades, t.entryIdx ≤ t.exitIdx := by
  have hbound : ∀ q ∈ (check_tage df.length p.haltezeit).enum, q.2 < df.length := by
    intro q hq
    have h1 : q.2 ∈ check_tage df.length p.haltezeit := List.snd_mem_of_mem_enum hq
    rw [check_tage_mitglied] at h1
    omega
  have hinv := backtest_fold_invariante p df atrS scoresAll
    ((check_tage df.length p.haltezeit).enum) ⟨0, [], p.tickerDepot, [p.tickerDepot]⟩
    hbound ⟨by simp, by simp⟩
  exact ⟨hinv.2, fun t ht => (hinv.1 t ht).1⟩

lemma backtest_signal_nicht_neutral {past : List ℤ} {score : ℤ}
    (h : backtest_signal past score ≠ Signal.neutral) : 5 ≤ past.length := by
  by_contra hlen
  apply h
  unfold backtest_signal
  rw [if_pos (by omega)]

lemma backtest_schritt_vorlauf (p : BtParams) (df : List Bar) (atrS : ℕ → Option ℚ)
    (scoresAll : List ℤ) (ct : List ℕ) (st : BtZustand) (idx i : ℕ)
    (hpair : i ∈ ct ∧ (5 ≤ idx + 1 → 4 ≤ (ct.filter (fun x => x < i)).length))
    (hinv : ∀ t ∈ st.trades,
      t.entryIdx ∈ ct ∧ 4 ≤ (ct.filter (fun x => x < t.entryIdx)).length) :
    ∀ t ∈ (backtest_schritt p df atrS scoresAll st (idx, i)).trades,
      t.entryIdx ∈ ct ∧ 4 ≤ (ct.filter (fun x => x < t.entryIdx)).length := by
  unfold backtest_schritt
  dsimp only
  split
  · exact hinv
  · rcases hsig : backtest_signal (scoresAll.take (idx + 1)) (scoresAll.getD idx 0) with
      _ | _ | _ <;> simp only [hsig]
    case neutral => exact hinv
    all_goals {
      intro t ht
      rcases List.mem_append.mp ht with ht | ht
      · exact hinv t ht
      · rw [List.mem_singleton] at ht
        subst ht
        have h5 : 5 ≤ (scoresAll.take (idx + 1)).length :=
          @backtest_signal_nicht_neutral (scoresAll.take (idx + 1))
            (scoresAll.getD idx 0) (by rw [hsig]; simp)
        rw [List.length_take] at h5
        exact ⟨hpair.1, hpair.2 (by omega)⟩
    }

lemma backtest_fold_vorlauf (p : BtParams) (df : List Bar) (atrS : ℕ → Option ℚ)
    (scoresAll : List ℤ) (ct : List ℕ) :
    ∀ (l : List (ℕ × ℕ)) (st : BtZustand),
      (∀ q ∈ l, q.2 ∈ ct ∧ (5 ≤ q.1 + 1 → 4 ≤ (ct.filter (fun x => x < q.2)).length)) →
      (∀ t ∈ st.trades,
        t.entryIdx ∈ ct ∧ 4 ≤ (ct.filter (fun x => x < t.entryIdx)).length) →
      ∀ t ∈ (l.foldl (backtest_schritt p df atrS scoresAll) st).trades,
        t.entryIdx ∈ ct ∧ 4 ≤ (ct.filter (fun x => x < t.entryIdx)).length
  | [], _, _, hinv => hinv
  | q :: rest, st, hl, hinv => by
    rw [List.foldl_cons]
    exact backtest_fold_vorlauf p df atrS scoresAll ct rest _
      (fun q' h' => hl q' (List.mem_cons_of_mem _ h'))
      (backtest_schritt_vorlauf p df atrS scoresAll ct st q.1 q.2
        (hl q (List.mem_cons_self _ _)) hinv)

lemma range5_filter_laenge :
    ∀ (cnt s k : ℕ),
      ((List.range' s cnt 5).filter (fun x => x < s + 5 * k)).length = min k cnt
  | 0, s, k => by simp
  | cnt + 1, s, k => by
    rw [List.range'_succ, List.filter_cons]
    rcases Nat.eq_zero_or_pos k with rfl | hk
    · rw [if_neg (by simp)]
      have hrest : (List.range' (s + 5) cnt 5).filter (fun x => x < s + 5 * 0) = [] := by
        refine List.filter_eq_nil_iff.mpr fun x hx => ?_
        rw [List.mem_range'] at hx
        obtain ⟨j, hj, rfl⟩ := hx
        simp
        omega
      rw [hrest]
      simp
    · rw [if_pos (by simp; omega)]
      have harg : s + 5 * k = s + 5 + 5 * (k - 1) := by omega
      rw [List.length_cons, harg, range5_filter_laenge cnt (s + 5) (k - 1)]
      omega

lemma check_tage_vorlauf_laenge (n h : ℕ) {idx : ℕ} (hidx : idx < (check_tage n h).length) :
    ((check_tage n h).filter (fun x => x < (check_tage n h)[idx])).length = idx := by
  have hcnt : (check_tage n h).length = (n - h - 60 + 4) / 5 := by
    simp [check_tage]
  have helem : (check_tage n h)[idx] = 60 + 5 * idx := List.getElem_range' idx hidx
  rw [helem, show check_tage n h = List.range' 60 ((n - h - 60 + 4) / 5) 5 from rfl,
    range5_filter_laenge]
  omega

/-- C5 (amended): checkpoints are exactly every 5th bar from bar 60 up to
`len - holdingPeriod` (exclusive), and a trade only opens once the score
population including the current checkpoint holds at least 5 entries —
equivalently, every recorded trade has at least 4 checkpoints strictly
before its entry checkpoint (4, not the claimed 5). -/
theorem checkpunkte_und_vorlauf (p : BtParams) (df : List Bar) (atrS : ℕ → Option ℚ)
    (scoresAll : List ℤ) :
    (∀ i, i ∈ check_tage df.length p.haltezeit ↔
        60 ≤ i ∧ i < df.length - p.haltezeit ∧ (i - 60) % 5 = 0)
    ∧ ∀ t ∈ (backtest_lauf p df atrS scoresAll).trades,
        t.entryIdx ∈ check_tage df.length p.haltezeit ∧
        4 ≤ ((check_tage df.length p.haltezeit).filter
              (fun x => x < t.entryIdx)).length := by
  refine ⟨fun i => check_tage_mitglied _ _ i, ?_⟩
  have hl : ∀ q ∈ (check_tage df.length p.haltezeit).enum,
      q.2 ∈ check_tage df.length p.haltezeit ∧
      (5 ≤ q.1 + 1 → 4 ≤ ((check_tage df.length p.haltezeit).filter
        (fun x => x < q.2)).length) := by
    rintro ⟨idx, x⟩ hq
    obtain ⟨hidx, hx⟩ := List.mem_enum hq
    dsimp only
    rw [hx]
    refine ⟨List.getElem_mem hidx, fun h5 => ?_⟩
    rw [check_tage_vorlauf_laenge df.length p.haltezeit hidx]
    omega
  exact backtest_fold_vorlauf p df atrS scoresAll _ _ _ hl (by simp)

lemma alle_gleich_schwellen (pop : List ℤ) (c : ℤ) (hall : ∀ x ∈ pop, x = c) :
    (pop.insertionSort (· ≤ ·)).getD (4 * pop.length / 5) 0
      = (pop.insertionSort (· ≤ ·)).getD (pop.length / 5) 0 := by
  rcases pop with _ | ⟨a, t⟩
  · rfl
  · have hperm := List.perm_insertionSort (· ≤ ·) (a :: t)
    have hlen : ((a :: t).insertionSort (· ≤ ·)).length = (a :: t).length :=
      hperm.length_eq
    have hmem : ∀ x ∈ (a :: t).insertionSort (· ≤ ·), x = c :=
      fun x hx => hall x (hperm.mem_iff.mp hx)
    have h1 : 4 * (a :: t).length / 5 < ((a :: t).insertionSort (· ≤ ·)).length := by
      rw [hlen]
      simp only [List.length_cons]
      omega
    have h2 : (a :: t).length / 5 < ((a :: t).insertionSort (· ≤ ·)).length := by
      rw [hlen]
      simp only [List.length_cons]
      omega
    rw [List.getD_eq_getElem _ _ h1, List.getD_eq_getElem _ _ h2,
      hmem _ (List.getElem_mem h1), hmem _ (List.getElem_mem h2)]

lemma schwellen_gleich_neutral (pop : List ℤ) (score : ℤ)
    (hth : (pop.insertionSort (· ≤ ·)).getD (4 * pop.length / 5) 0
      = (pop.insertionSort (· ≤ ·)).getD (pop.length / 5) 0) :
    backtest_signal pop score = Signal.neutral := by
  unfold backtest_signal
  split
  · rfl
  · dsimp only
    rw [if_pos hth]

lemma backtest_schritt_neutral_fix (p : BtParams) (df : List Bar) (atrS : ℕ → Option ℚ)
    (scoresAll : List ℤ) (st : BtZustand) (idx i : ℕ)
    (hsig : backtest_signal (scoresAll.take (idx + 1)) (scoresAll.getD idx 0)
      = Signal.neutral) :
    (backtest_schritt p df atrS scoresAll st (idx, i)).trades = st.trades := by
  unfold backtest_schritt
  dsimp only
  split
  · rfl
  · rw [hsig]

/-- C4: self-degeneracy of the percentile classification. An all-equal score
population makes the two percentile thresholds coincide; coinciding
thresholds classify every score Neutral; and a backtest checkpoint whose
population (scores up to and including the checkpoint) has coinciding
thresholds opens no trade. -/
theorem degenerierte_klassifikation (pop : List ℤ) (c score : ℤ) (p : BtParams)
    (df : List Bar) (atrS : ℕ → Option ℚ) (scoresAll : List ℤ) (st : BtZustand)
    (idx i : ℕ) :
    ((∀ x ∈ pop, x = c) →
      (pop.insertionSort (· ≤ ·)).getD (4 * pop.length / 5) 0
        = (pop.insertionSort (· ≤ ·)).getD (pop.length / 5) 0)
    ∧ ((pop.insertionSort (· ≤ ·)).getD (4 * pop.length / 5) 0
        = (pop.insertionSort (· ≤ ·)).getD (pop.length / 5) 0 →
      backtest_signal pop score = Signal.neutral)
    ∧ ((∀ x ∈ scoresAll.take (idx + 1), x = c) →
      (backtest_schritt p df atrS scoresAll st (idx, i)).trades = st.trades) :=
  ⟨alle_gleich_schwellen pop c,
   schwellen_gleich_neutral pop score,
   fun hall => backtest_schritt_neutral_fix p df atrS scoresAll st idx i
     (schwellen_gleich_neutral _ _ (alle_gleich_schwellen _ c hall))⟩

/-! ## Drawdown bounds, classification thresholds, short-series behaviour,
pattern-bonus bounds -/

lemma drawdown_schritt_schranke (peak dd v : ℚ) (hp : 0 ≤ peak) (h0 : 0 ≤ dd)
    (h1 : dd ≤ 100) (hv : 0 ≤ v) :
    0 ≤ (drawdown_schritt (peak, dd) v).1
    ∧ 0 ≤ (drawdown_schritt (peak, dd) v).2
    ∧ (drawdown_schritt (peak, dd) v).2 ≤ 100 := by
  simp only [drawdown_schritt]
  set peak2 := if v > peak then v else peak with hpk
  have hp2 : 0 ≤ peak2 := by rw [hpk]; split <;> assumption
  have hvp : v ≤ peak2 := by
    rw [hpk]; split
    · exact le_rfl
    · next h => exact le_of_not_lt h
  set dd2 := if peak2 > 0 then (peak2 - v) / peak2 * 100 else 0 with hdk
  have hdd2 : 0 ≤ dd2 ∧ dd2 ≤ 100 := by
    rw [hdk]; split
    · next hpos =>
      refine ⟨mul_nonneg (div_nonneg (by linarith) (le_of_lt hpos)) (by norm_num), ?_⟩
      have hq : (peak2 - v) / peak2 ≤ 1 := by
        rw [div_le_one hpos]; linarith
      calc (peak2 - v) / peak2 * 100 ≤ 1 * 100 :=
            mul_le_mul_of_nonneg_right hq (by norm_num)
        _ = 100 := by norm_num
    · exact ⟨le_rfl, by norm_num⟩
  refine ⟨hp2, ?_, ?_⟩
  · show 0 ≤ if dd2 > dd then dd2 else dd
    split
    · exact hdd2.1
    · exact h0
  · show (if dd2 > dd then dd2 else dd) ≤ 100
    split
    · exact hdd2.2
    · exact h1

lemma drawdown_fold_schranke (l : List ℚ) :
    ∀ st : ℚ × ℚ, 0 ≤ st.1 → 0 ≤ st.2 → st.2 ≤ 100 → (∀ v ∈ l, 0 ≤ v) →
      0 ≤ (l.foldl drawdown_schritt st).2 ∧ (l.foldl drawdown_schritt st).2 ≤ 100 := by
  induction l with
  | nil => exact fun st _ h0 h1 _ => ⟨h0, h1⟩
  | cons v rest ih =>
    intro st hp h0 h1 hv
    rw [List.foldl_cons]
    have hst := drawdown_schritt_schranke st.1 st.2 v hp h0 h1 (hv v (by simp))
    exact ih _ hst.1 hst.2.1 hst.2.2 (fun w hw => hv w (List.mem_cons_of_mem _ hw))

/-- C8 (amended): for every equity curve of non-negative account-value
samples, the maximum drawdown lies in the closed interval `[0, 100]`.
(Negative samples can push the drawdown above 100; see the
counterexample.) -/
theorem drawdown_schranken (eq : List ℚ) (hnn : ∀ v ∈ eq, 0 ≤ v) :
    0 ≤ berechne_max_drawdown eq ∧ berechne_max_drawdown eq ≤ 100 := by
  unfold berechne_max_drawdown
  split
  · exact ⟨le_rfl, by norm_num⟩
  · refine drawdown_fold_schranke eq (eq.headD 0, 0) ?_ le_rfl (by norm_num) hnn
    cases eq with
    | nil => exact le_rfl
    | cons a t => exact hnn a (by simp)

/-- C9 (amended): the absolute classification is Long iff
`score ≥ SCORE_LONG`, Short iff `score ≤ SCORE_SHORT`, Neutral iff the
score lies strictly between the thresholds — and the configured default
short threshold is `SCORE_LONG − 4`, not `SCORE_LONG − 7`. -/
theorem absolute_klassifikation (score : ℤ) :
    (signal_von_score score = Signal.long ↔ SCORE_LONG ≤ score)
    ∧ (signal_von_score score = Signal.short ↔ score ≤ SCORE_SHORT)
    ∧ (signal_von_score score = Signal.neutral ↔
        SCORE_SHORT < score ∧ score < SCORE_LONG)
    ∧ SCORE_SHORT = SCORE_LONG - 4 := by
  unfold signal_von_score SCORE_LONG SCORE_SHORT
  refine ⟨?_, ?_, ?_, by norm_num⟩ <;>
    · split_ifs with h1 h2 <;> simp_all <;> omega

/-- C6 (amended): `precompute_serien` applies no minimum-length guard — on
a series of fewer than 50 bars it still returns the indicator set built
from those bars (the 10-bar SMA field, for instance, is the plain rolling
mean of the series' closes) — while the 50-bar short-series guard lives in
the scorers: `berechne_score` and `score_ict` return `(0, [])` there. -/
theorem kurze_serie_kein_fehler (df : List Bar) (spy : Option (List (ℕ × ℚ)))
    (spyL : List (ℕ × ℚ)) (flag : Bool) (h : df.length < 50) :
    (precompute_serien df spy).sma10 = sma_at 10 (closes df)
    ∧ berechne_score df spyL flag = (0, [])
    ∧ score_ict df = (0, []) := by
  refine ⟨rfl, ?_, ?_⟩
  · have hk : berechne_score_kern df spyL = (0, []) := by
      unfold berechne_score_kern
      rw [if_pos h]
    simp only [berechne_score, hk]
    split
    · next hc => exact absurd hc.2 (by omega)
    · rfl
  · unfold score_ict
    rw [if_pos h]

lemma ict_fvg_bull_schranke (fvgs : List Zone) (kurs : ℚ) :
    0 ≤ (ict_fvg_bull fvgs kurs).1 ∧ (ict_fvg_bull fvgs kurs).1 ≤ 2 := by
  unfold ict_fvg_bull
  split <;> exact ⟨by decide, by decide⟩

lemma ict_fvg_bear_schranke (fvgs : List Zone) (kurs : ℚ) :
    -2 ≤ (ict_fvg_bear fvgs kurs).1 ∧ (ict_fvg_bear fvgs kurs).1 ≤ 0 := by
  unfold ict_fvg_bear
  split <;> exact ⟨by decide, by decide⟩

lemma ict_ob_bull_schranke (obs : List Zone) (kurs : ℚ) :
    0 ≤ (ict_ob_bull obs kurs).1 ∧ (ict_ob_bull obs kurs).1 ≤ 2 := by
  unfold ict_ob_bull
  split <;> exact ⟨by decide, by decide⟩

lemma ict_ob_bear_schranke (obs : List Zone) (kurs : ℚ) :
    -2 ≤ (ict_ob_bear obs kurs).1 ∧ (ict_ob_bear obs kurs).1 ≤ 0 := by
  unfold ict_ob_bear
  split <;> exact ⟨by decide, by decide⟩

lemma ict_sweep_bull_schranke (sweeps : List Sweep) (n : ℕ) :
    0 ≤ (ict_sweep_bull sweeps n).1 ∧ (ict_sweep_bull sweeps n).1 ≤ 1 := by
  unfold ict_sweep_bull
  split <;> exact ⟨by decide, by decide⟩

lemma ict_sweep_bear_schranke (sweeps : List Sweep) (n : ℕ) :
    -1 ≤ (ict_sweep_bear sweeps n).1 ∧ (ict_sweep_bear sweeps n).1 ≤ 0 := by
  unfold ict_sweep_bear
  split <;> exact ⟨by decide, by decide⟩

lemma ict_bos_schranke (bos : Option Richtung) :
    -1 ≤ (ict_bos bos).1 ∧ (ict_bos bos).1 ≤ 1 := by
  rcases bos with _ | r
  · exact ⟨by decide, by decide⟩
  · cases r <;> exact ⟨by decide, by decide⟩

/-- C10: the ICT pattern delta is bounded — each of the four pattern kinds
contributes at most one bullish and one bearish verdict of fixed magnitude
(FVG ±2, order block ±2, sweep ±1, break of structure a single ±1), so the
total lies in `[−6, 6]`; and a frame of fewer than 50 rows yields exactly
delta 0 with an empty detail list. -/
theorem ict_beschraenkt (df : List Bar) (lookback : ℕ) :
    (-6 ≤ (score_ict df lookback).1 ∧ (score_ict df lookback).1 ≤ 6)
    ∧ (df.length < 50 → score_ict df lookback = (0, [])) := by
  constructor
  · unfold score_ict
    split
    · exact ⟨by decide, by decide⟩
    · dsimp only
      obtain ⟨h1a, h1b⟩ :=
        ict_fvg_bull_schranke (detect_fvg df lookback) (closeAt df (df.length - 1))
      obtain ⟨h2a, h2b⟩ :=
        ict_fvg_bear_schranke (detect_fvg df lookback) (closeAt df (df.length - 1))
      obtain ⟨h3a, h3b⟩ :=
        ict_ob_bull_schranke (detect_order_blocks df) (closeAt df (df.length - 1))
      obtain ⟨h4a, h4b⟩ :=
        ict_ob_bear_schranke (detect_order_blocks df) (closeAt df (df.length - 1))
      obtain ⟨h5a, h5b⟩ :=
        ict_sweep_bull_schranke (detect_liquidity_sweep df lookback) df.length
      obtain ⟨h6a, h6b⟩ :=
        ict_sweep_bear_schranke (detect_liquidity_sweep df lookback) df.length
      obtain ⟨h7a, h7b⟩ := ict_bos_schranke (detect_bos df lookback)
      exact ⟨by omega, by omega⟩
  · intro h
    unfold score_ict
    rw [if_pos h]

/-! ## Concrete evaluations: witnesses and counterexamples -/

section KonkreteAuswertung

attribute [local semireducible] Rat.mul Rat.add Rat.sub Rat.inv

set_option maxRecDepth 400000

/-- C1 witness: the anti-lookahead relation instantiated on the 52-bar
spike frame at the interior index 50, all hypotheses checked by
evaluation. -/
theorem kein_blick_voraus_zeuge :
    (df_spike.Pairwise (fun a b => a.datum < b.datum)
      ∧ 50 < df_spike.length ∧ 0 < closeAt df_spike 50)
    ∧ score_bei_index 50 (df_spike.take 51) (precompute_serien (df_spike.take 51) none)
      = score_bei_index 50 df_spike (precompute_serien df_spike none)
        + (if 50 = df_spike.length - 1 then 0 else (score_ict (df_spike.take 51)).1) :=
  ⟨⟨by decide, by decide, by decide⟩,
   @score_bei_index_kein_blick_voraus df_spike none 50 (by decide) (by decide) (by decide)⟩

/-- C1 counterexample: at the interior index 50 of the spike frame the
truncated-series score is 6 but the full-series score is 3 — the scores
differ because `score_bei_index` adds the ICT bonus only at the last index
of whatever frame it is given, so truncation changes which index receives
the bonus. -/
theorem kein_blick_voraus_gegenbeispiel :
    score_bei_index 50 (df_spike.take 51) (precompute_serien (df_spike.take 51) none) = 6
    ∧ score_bei_index 50 df_spike (precompute_serien df_spike none) = 3
    ∧ score_bei_index 50 (df_spike.take 51) (precompute_serien (df_spike.take 51) none)
      ≠ score_bei_index 50 df_spike (precompute_serien df_spike none) := by
  have h1 : score_bei_index 50 (df_spike.take 51)
      (precompute_serien (df_spike.take 51) none) = 6 := by decide
  have h2 : score_bei_index 50 df_spike (precompute_serien df_spike none) = 3 := by decide
  exact ⟨h1, h2, by rw [h1, h2]; decide⟩

/-- C2 witness: on a 55-bar flat frame the returned total equals the sum of
the recorded deltas. -/
theorem summe_zeuge :
    50 ≤ df55.length
    ∧ (berechne_score df55 [] true).1 = detail_summe (berechne_score df55 [] true).2 :=
  ⟨by decide, score_summe_der_details df55 [] true (by decide)⟩

/-- C3 witness: the non-overlap theorem instantiated on the concrete
141-bar run. -/
theorem ueberlappung_zeuge :
    (backtest_lauf p_test df141 (fun _ => none) scores_test).trades.Pairwise
        (fun a b => a.exitIdx ≤ b.entryIdx)
    ∧ ∀ t ∈ (backtest_lauf p_test df141 (fun _ => none) scores_test).trades,
        t.entryIdx ≤ t.exitIdx :=
  trades_ohne_ueberlappung p_test df141 (fun _ => none) scores_test

/-- C3 counterexample: the concrete run records the trades `(80, 110)` and
`(110, 140)` — the closed index ranges `[80, 110]` and `[110, 140]` of two
distinct trades share the bar 110, because a new entry at the previous
trade's exit checkpoint is permitted (`if i < next_idx: continue` with
`next_idx = exit_idx`). -/
theorem ueberlappung_gegenbeispiel :
    ((backtest_lauf p_test df141 (fun _ => none) scores_test).trades.map
        (fun t => (t.entryIdx, t.exitIdx))) = [(80, 110), (110, 140)]
    ∧ (110 : ℕ) ∈ Finset.Icc 80 110 ∧ (110 : ℕ) ∈ Finset.Icc 110 140 := by
  refine ⟨by decide, by decide, by decide⟩

/-- C4 witness: an all-equal population of five scores classifies the
outlier score 7 Neutral, and the corresponding backtest step records no
trade. -/
theorem degeneriert_zeuge :
    backtest_signal [3, 3, 3, 3, 3] 7 = Signal.neutral
    ∧ (backtest_schritt p_test df141 (fun _ => none) [3, 3, 3, 3, 3]
        ⟨0, [], 10000, [10000]⟩ (4, 80)).trades = [] :=
  ⟨(degenerierte_klassifikation [3, 3, 3, 3, 3] 3 7 p_test df141 (fun _ => none)
      [3, 3, 3, 3, 3] ⟨0, [], 10000, [10000]⟩ 4 80).2.1
    ((degenerierte_klassifikation [3, 3, 3, 3, 3] 3 7 p_test df141 (fun _ => none)
      [3, 3, 3, 3, 3] ⟨0, [], 10000, [10000]⟩ 4 80).1 (by decide)),
   (degenerierte_klassifikation [3, 3, 3, 3, 3] 3 7 p_test df141 (fun _ => none)
      [3, 3, 3, 3, 3] ⟨0, [], 10000, [10000]⟩ 4 80).2.2 (by decide)⟩

/-- C5 witness: the checkpoint characterisation and the prior-checkpoint
bound instantiated on the concrete 141-bar run. -/
theorem vorlauf_zeuge :
    (60 ∈ check_tage df141.length 30 ↔
        60 ≤ 60 ∧ 60 < df141.length - 30 ∧ (60 - 60) % 5 = 0)
    ∧ ∀ t ∈ (backtest_lauf p_test df141 (fun _ => none) scores_test).trades,
        t.entryIdx ∈ check_tage df141.length 30 ∧
        4 ≤ ((check_tage df141.length 30).filter (fun x => x < t.entryIdx)).length :=
  ⟨(checkpunkte_und_vorlauf p_test df141 (fun _ => none) scores_test).1 60,
   (checkpunkte_und_vorlauf p_test df141 (fun _ => none) scores_test).2⟩

/-- C5 counterexample: the concrete run opens a trade at checkpoint 80 with
only 4 checkpoints strictly before it — the population `scores_all[:idx+1]`
counts the current checkpoint, so the ≥5 requirement leaves just 4 strictly
prior evaluations. -/
theorem vorlauf_gegenbeispiel :
    (∃ t ∈ (backtest_lauf p_test df141 (fun _ => none) scores_test).trades,
        t.entryIdx = 80)
    ∧ ((check_tage df141.length 30).filter (fun x => x < 80)).length = 4 := by
  refine ⟨by decide, by decide⟩

/-- C6 witness: the short-series behaviour on a 40-bar frame. -/
theorem kurze_serie_zeuge :
    df40.length < 50
    ∧ ((precompute_serien df40 none).sma10 = sma_at 10 (closes df40)
      ∧ berechne_score df40 [] true = (0, [])
      ∧ score_ict df40 = (0, [])) :=
  ⟨by decide, kurze_serie_kein_fehler df40 none [] true (by decide)⟩

/-- C6 counterexample: a 40-bar frame — below the 50-bar minimum — is
accepted by `precompute_serien`, which returns a partial indicator set
(the 10-bar SMA is populated while the 200-bar SMA is `none`) instead of
failing. -/
theorem precompute_kurz_gegenbeispiel :
    df40.length = 40
    ∧ (precompute_serien df40 none).sma10 39 = some 100
    ∧ (precompute_serien df40 none).sma200 39 = none := by
  refine ⟨by decide, by decide, by decide⟩

/-- C7 witness: on a 55-bar flat frame the trend-enabled scorer extends the
no-trend breakdown by exactly the trend entry. -/
theorem trend_notiz_zeuge :
    55 ≤ df55.length
    ∧ berechne_score df55 [] true
      = ((berechne_score df55 [] false).1,
          (berechne_score df55 [] false).2 ++
            [Detail.trendNotiz ((berechne_score df55 [] false).1
              - (berechne_score (df55.take (df55.length - 5)) [] false).1)]) :=
  ⟨by decide, (trend_notiz_korrekt df55 []).1 (by decide)⟩

/-- C8 witness: the drawdown bounds on a concrete non-negative curve. -/
theorem drawdown_schranken_zeuge :
    (∀ v ∈ [(100 : ℚ), 50], 0 ≤ v)
    ∧ 0 ≤ berechne_max_drawdown [100, 50] ∧ berechne_max_drawdown [100, 50] ≤ 100 :=
  ⟨by decide, drawdown_schranken [100, 50] (by decide)⟩

/-- C8 counterexample: with a negative sample the drawdown leaves `[0,100]`
— the curve `[1, -1]` yields a maximum drawdown of 200. -/
theorem drawdown_gegenbeispiel :
    berechne_max_drawdown [1, -1] = 200 ∧ ¬ berechne_max_drawdown [1, -1] ≤ 100 := by
  refine ⟨by decide, by decide⟩

/-- C9 witness: a score of 5 clears the long threshold. -/
theorem klassifikation_zeuge : signal_von_score 5 = Signal.long :=
  (absolute_klassifikation 5).1.mpr (by decide)

/-- C9 counterexample: the configured thresholds are 4 and 0 — they differ
by 4, not by the claimed 7. -/
theorem schwellen_gegenbeispiel :
    SCORE_LONG = 4 ∧ SCORE_SHORT = 0 ∧ SCORE_SHORT ≠ SCORE_LONG - 7 := by
  refine ⟨by decide, by decide, by decide⟩

/-- C10 witness: the short-frame arm of the pattern-bonus theorem applied
to the 40-bar frame. -/
theorem ict_beschraenkt_zeuge :
    df40.length < 50 ∧ score_ict df40 20 = (0, []) :=
  ⟨by decide, (ict_beschraenkt df40 20).2 (by decide)⟩

end KonkreteAuswertung
